import Mathlib

/-!
Verification of `App_Function_Libraries/DB/Character_Chat_DB.py` (tldw).

The module stores character cards and chats in SQLite tables
(`CharacterCards`, `CharacterChats`, `ChatKeywords`) plus an FTS5 shadow
table `CharacterChats_fts` kept in sync by three triggers
(`CharacterChats_ai` / `_au` / `_ad`).  We model the database state as
explicit lists of rows and each Python function as a pure Lean function on
that state.  Notable modelling decisions, each taken from the source:

* Every function opens its own `sqlite3.connect(chat_DB_PATH)`.  Only
  `initialize_database` runs `PRAGMA foreign_keys = ON`, and that pragma is
  per-connection in SQLite, so in every other function foreign keys are NOT
  enforced; the model therefore performs no foreign-key checks in the CRUD
  functions.
* The FTS5 triggers fire on every row inserted/updated/deleted in
  `CharacterChats`, which we model by updating the `fts` list inside the
  same state transition (SQLite triggers run in the same transaction).
* `json.dumps` / `json.loads` (Python stdlib, used for `chat_history`,
  `alternate_greetings`, `tags`, `extensions`) are modelled by `jdumps` /
  `jloads` over an explicit JSON value type.  The escaping of the quote,
  the backslash and control characters is modelled exactly; other
  characters are emitted verbatim (`json.dumps` with `ensure_ascii=False`;
  the single-letter shortcuts such as backslash-n are a display variant of
  the `\u00XX` form we emit, and `jloads` accepts both, like `json.loads`).
* The FTS5 `MATCH` operator and the `rank` column are engine facilities
  whose internals are outside the repository; the search functions take an
  `Fts5Engine` (a match predicate and a rank function) as an explicit
  parameter and `ORDER BY rank` is an ascending stable sort on that rank.
-/

/-! ## JSON values (model of the Python `json` payloads) -/

/-- A JSON value: the values `json.dumps` receives in this module
(strings, integers, booleans, null, arrays, string-keyed objects).
Strings are kept as `List Char` so that the serializer and the
deserializer can be stated by plain list recursion. -/
inductive JValue where
  | jnull : JValue
  | jbool (b : Bool) : JValue
  | jnum (n : Int) : JValue
  | jstr (s : List Char) : JValue
  | jarr (xs : List JValue) : JValue
  | jobj (xs : List (List Char × JValue)) : JValue

/-- The character the scanner of this file cannot hold literally:
an opening curly brace. -/
def lbrace : Char := Char.ofNat 123

/-- A closing curly brace. -/
def rbrace : Char := Char.ofNat 125

/-- Hexadecimal digit characters, lower case (as `json.dumps` emits). -/
def hexDigit (d : Nat) : Char :=
  if d < 10 then Char.ofNat (48 + d) else Char.ofNat (87 + d)

/-- One character of JSON string-escaping: quote and backslash get a
backslash escape, control characters become a `\u00XX` escape, everything
else is emitted verbatim. -/
def escapeChar (c : Char) : List Char :=
  if c = '"' then ['\\', '"']
  else if c = '\\' then ['\\', '\\']
  else if c.toNat < 32 then
    ['\\', 'u', '0', '0', hexDigit (c.toNat / 16), hexDigit (c.toNat % 16)]
  else [c]

/-- JSON string-escaping of a whole string body. -/
def escapeString : List Char → List Char
  | [] => []
  | c :: cs => escapeChar c ++ escapeString cs

/-- Decimal digit character of `d < 10`. -/
def digitChar (d : Nat) : Char := Char.ofNat (48 + d)

/-- Decimal representation of a natural number, most significant digit
first (the integer formatting used by `json.dumps`). -/
def natToChars (n : Nat) : List Char :=
  if h : n < 10 then [digitChar n]
  else natToChars (n / 10) ++ [digitChar (n % 10)]
  decreasing_by
    exact Nat.div_lt_self (Nat.lt_of_lt_of_le (by decide) (Nat.le_of_not_lt h)) (by decide)

/-- Decimal representation of an integer. -/
def intToChars (i : Int) : List Char :=
  if i < 0 then '-' :: natToChars i.natAbs else natToChars i.toNat

mutual

/-- `json.dumps` with the module's default arguments: separators
`", "` and `": "`, sorted keys off. -/
def jdumpsChars : JValue → List Char
  | .jnull => ['n', 'u', 'l', 'l']
  | .jbool true => ['t', 'r', 'u', 'e']
  | .jbool false => ['f', 'a', 'l', 's', 'e']
  | .jnum n => intToChars n
  | .jstr s => '"' :: (escapeString s ++ ['"'])
  | .jarr xs => '[' :: (jdumpsArr xs ++ [']'])
  | .jobj xs => lbrace :: (jdumpsObj xs ++ [rbrace])

/-- Array elements, separated by `", "`. -/
def jdumpsArr : List JValue → List Char
  | [] => []
  | [x] => jdumpsChars x
  | x :: y :: xs => jdumpsChars x ++ (',' :: ' ' :: jdumpsArr (y :: xs))

/-- Object members `"key": value`, separated by `", "`. -/
def jdumpsObj : List (List Char × JValue) → List Char
  | [] => []
  | [(k, v)] => '"' :: (escapeString k ++ ('"' :: ':' :: ' ' :: jdumpsChars v))
  | (k, v) :: p :: xs =>
      ('"' :: (escapeString k ++ ('"' :: ':' :: ' ' :: jdumpsChars v)))
        ++ (',' :: ' ' :: jdumpsObj (p :: xs))

end

/-- `json.dumps` as a `String → String`-level function. -/
def jdumps (v : JValue) : String := String.mk (jdumpsChars v)

/-- The characters Python's `str.strip()` removes by default. -/
def isPyWs (c : Char) : Bool :=
  c = ' ' || c = '\t' || c = '\n' || c = '\r' || c = '\x0b' || c = '\x0c'

/-- Python `str.strip()`: whitespace removed from both ends. -/
def pyStrip (s : String) : String :=
  String.mk (((s.data.dropWhile isPyWs).reverse.dropWhile isPyWs).reverse)

/-- Python `str.lower()` (on the ASCII range this module uses). -/
def pyLower (s : String) : String := String.mk (s.data.map Char.toLower)

/-! ## Database state

`initialize_database` creates the three content tables and the FTS5 shadow
table; we model the post-initialization store as lists of rows plus the
AUTOINCREMENT counters. -/

/-- A row of `CharacterCards` (schema of `initialize_database`).
`image` is an SQL BLOB-or-NULL, modelled as `Option (List Nat)`. -/
structure CharacterCardRow where
  id : Nat
  name : String
  description : String
  personality : String
  scenario : String
  image : Option (List Nat)
  post_history_instructions : String
  first_mes : String
  mes_example : String
  creator_notes : String
  system_prompt : String
  alternate_greetings : String
  tags : String
  creator : String
  character_version : String
  extensions : String
  created_at : Nat
deriving DecidableEq

/-- A row of `CharacterChats`. -/
structure CharacterChatRow where
  id : Nat
  character_id : Nat
  conversation_name : String
  chat_history : String
  is_snapshot : Bool
  created_at : Nat
deriving DecidableEq

/-- A row of the FTS5 shadow table `CharacterChats_fts`
(`content_rowid = id`). -/
structure FtsRow where
  rowid : Nat
  conversation_name : String
  chat_history : String
deriving DecidableEq

/-- The whole store.  `nextCardId` / `nextChatId` are the AUTOINCREMENT
counters, `now` a logical clock stamping `created_at`. -/
structure DB where
  characterCards : List CharacterCardRow
  characterChats : List CharacterChatRow
  chatKeywords : List (Nat × String)
  fts : List FtsRow
  nextCardId : Nat
  nextChatId : Nat
  now : Nat
deriving DecidableEq

/-- The store right after `initialize_database` on a fresh file:
all tables empty, AUTOINCREMENT counters at 1. -/
def initialDB : DB :=
  { characterCards := []
    characterChats := []
    chatKeywords := []
    fts := []
    nextCardId := 1
    nextChatId := 1
    now := 0 }

/-! ## Character card operations -/

/-- The input dictionary `card_data` of `parse_character_card` /
`add_character_card`: every field the function reads with `.get`, `none`
meaning the key is absent.  The outer `Option` of `image` records whether
the key `image` is present at all (the code only copies it when
`'image' in card_data`), the inner one a null/BLOB value. -/
structure CardInput where
  name : Option String := none
  description : Option String := none
  personality : Option String := none
  scenario : Option String := none
  first_mes : Option String := none
  mes_example : Option String := none
  creator_notes : Option String := none
  system_prompt : Option String := none
  post_history_instructions : Option String := none
  alternate_greetings : Option JValue := none
  tags : Option JValue := none
  creator : Option String := none
  character_version : Option String := none
  extensions : Option JValue := none
  image : Option (Option (List Nat)) := none

/-- Output of `parse_character_card`: the V2 dictionary with the three
list/map fields serialized by `json.dumps` and `image` copied only when
present. -/
structure ParsedCard where
  name : String
  description : String
  personality : String
  scenario : String
  first_mes : String
  mes_example : String
  creator_notes : String
  system_prompt : String
  post_history_instructions : String
  alternate_greetings : String
  tags : String
  creator : String
  character_version : String
  extensions : String
  image : Option (Option (List Nat))

/-- `parse_character_card`: defaults every missing text field to the empty
string, `json.dumps`-serializes `alternate_greetings` (default `[]`),
`tags` (default `[]`) and `extensions` (default the empty object), and
copies `image` only when the key is present. -/
def parse_character_card (card_data : CardInput) : ParsedCard :=
  { name := card_data.name.getD ("")
    description := card_data.description.getD ("")
    personality := card_data.personality.getD ("")
    scenario := card_data.scenario.getD ("")
    first_mes := card_data.first_mes.getD ("")
    mes_example := card_data.mes_example.getD ("")
    creator_notes := card_data.creator_notes.getD ("")
    system_prompt := card_data.system_prompt.getD ("")
    post_history_instructions := card_data.post_history_instructions.getD ("")
    alternate_greetings := jdumps (card_data.alternate_greetings.getD (.jarr []))
    tags := jdumps (card_data.tags.getD (.jarr []))
    creator := card_data.creator.getD ("")
    character_version := card_data.character_version.getD ("")
    extensions := jdumps (card_data.extensions.getD (.jobj []))
    image := card_data.image }

/-- The full-replace of the mutable columns performed by the UPDATE branch
of `add_character_card` (every column except `id`, `name`, `created_at`). -/
def overwriteCard (r : CharacterCardRow) (p : ParsedCard) (img : Option (List Nat)) :
    CharacterCardRow :=
  { r with
    description := p.description, personality := p.personality,
    scenario := p.scenario, image := img,
    post_history_instructions := p.post_history_instructions,
    first_mes := p.first_mes, mes_example := p.mes_example,
    creator_notes := p.creator_notes, system_prompt := p.system_prompt,
    alternate_greetings := p.alternate_greetings, tags := p.tags,
    creator := p.creator, character_version := p.character_version,
    extensions := p.extensions }

/-- `add_character_card`: parses the card, looks the name up, updates the
existing row or inserts a new one, and returns the id.  When the input has
no `image` key, `parsed_card['image']` raises a `KeyError` while building
the parameter tuple (in either branch); the generic `except Exception`
handler returns `None` and the connection closes without a commit, so the
store is unchanged. -/
def add_character_card (card_data : CardInput) (db : DB) : Option Nat × DB :=
  let parsed := parse_character_card card_data
  match db.characterCards.find? (fun r => r.name == parsed.name) with
  | some r =>
    match parsed.image with
    | none => (none, db)
    | some img =>
      (some r.id,
       { db with characterCards :=
          db.characterCards.map (fun r0 => if r0.id == r.id then overwriteCard r0 parsed img else r0) })
  | none =>
    match parsed.image with
    | none => (none, db)
    | some img =>
      let newRow : CharacterCardRow :=
        { id := db.nextCardId, name := parsed.name, description := parsed.description
          personality := parsed.personality, scenario := parsed.scenario, image := img
          post_history_instructions := parsed.post_history_instructions
          first_mes := parsed.first_mes, mes_example := parsed.mes_example
          creator_notes := parsed.creator_notes, system_prompt := parsed.system_prompt
          alternate_greetings := parsed.alternate_greetings, tags := parsed.tags
          creator := parsed.creator, character_version := parsed.character_version
          extensions := parsed.extensions, created_at := db.now }
      (some db.nextCardId,
       { db with characterCards := db.characterCards ++ [newRow],
                 nextCardId := db.nextCardId + 1, now := db.now + 1 })

/-- The dynamically-typed argument of `get_character_card_by_id`: a Python
`int`, an already-materialized `dict`, or a value of any other type. -/
inductive CardArg where
  | byId (id : Nat)
  | byDict (d : CardInput)
  | invalid

/-- What `get_character_card_by_id` can hand back: a table row, or the
caller's dictionary passed through. -/
inductive CardResult where
  | row (r : CharacterCardRow)
  | dict (d : CardInput)

/-- `get_character_card_by_id`: a `dict` argument is returned unchanged
without touching the table, an `int` argument is looked up by id, any
other type is logged and answered with `None`. -/
def get_character_card_by_id (character_id : CardArg) (db : DB) : Option CardResult :=
  match character_id with
  | .byDict d => some (.dict d)
  | .byId i => (db.characterCards.find? (fun r => r.id == i)).map .row
  | .invalid => none

/-- The columns of the `CharacterCards` table, from the CREATE TABLE in
`initialize_database`. -/
def characterCardsColumns : List String :=
  ["id", "name", "description", "personality", "scenario", "image",
   "post_history_instructions", "first_mes", "mes_example", "creator_notes",
   "system_prompt", "alternate_greetings", "tags", "creator",
   "character_version", "extensions", "created_at"]

/-- The columns named in the SET clause of `update_character_card`'s
UPDATE statement. -/
def updateCharacterCardSetColumns : List String :=
  ["name", "description", "personality", "scenario", "image",
   "post_history_instructions", "first_message"]

/-- `update_character_card`: its UPDATE statement names the column
`first_message`, which does not exist in `CharacterCards` (the schema
column is `first_mes`), so SQLite fails to prepare the statement and
raises `sqlite3.OperationalError`; the function only catches
`sqlite3.IntegrityError`, so the error propagates to the caller — modelled
as `Except.error`.  The success branch is unreachable for this schema. -/
def update_character_card (character_id : Nat) (card_data : CardInput) (db : DB) :
    Except String (Bool × DB) :=
  if updateCharacterCardSetColumns.all (fun c => characterCardsColumns.contains c) then
    .ok (db.characterCards.any (fun r => r.id == character_id), db)
  else
    .error ("no such column: first_message")

/-- `delete_character_card`: deletes the chats of the character (each
firing the `CharacterChats_ad` trigger, which removes the FTS row of that
chat id), then the card row, commits both in one transaction, and reports
whether the last DELETE (the card) removed a row.  `ChatKeywords` rows are
not touched: their ON DELETE CASCADE clause is inert because this
connection never enables `PRAGMA foreign_keys`. -/
def delete_character_card (character_id : Nat) (db : DB) : Bool × DB :=
  let deletedChats := db.characterChats.filter (fun c => c.character_id == character_id)
  let fts' := deletedChats.foldl (fun acc c => acc.filter (fun e => !(e.rowid == c.id))) db.fts
  let chats' := db.characterChats.filter (fun c => !(c.character_id == character_id))
  let cardHit := db.characterCards.any (fun r => r.id == character_id)
  let cards' := db.characterCards.filter (fun r => !(r.id == character_id))
  (cardHit, { db with characterCards := cards', characterChats := chats', fts := fts' })

/-! ## Chat operations -/

/-- `json.dumps` of a Python `List[Tuple[str, str]]` chat history: tuples
serialize as JSON arrays. -/
def historyToJson (h : List (String × String)) : JValue :=
  .jarr (h.map (fun p => .jarr [.jstr p.1.data, .jstr p.2.data]))

/-- `add_character_chat`: serializes the history, inserts the chat row
(no foreign-key check happens on this connection, see the module header),
lets the `CharacterChats_ai` trigger create the FTS entry, inserts the
trimmed and lower-cased keyword rows when a non-empty keyword list is
given (`if keywords:` is false for `None` and for `[]`), and returns the
new chat id. -/
def add_character_chat (character_id : Nat) (conversation_name : String)
    (chat_history : List (String × String)) (keywords : Option (List String))
    (is_snapshot : Bool) (db : DB) : Option Nat × DB :=
  let chat_history_json := jdumps (historyToJson chat_history)
  let chat_id := db.nextChatId
  let row : CharacterChatRow :=
    { id := chat_id, character_id := character_id,
      conversation_name := conversation_name,
      chat_history := chat_history_json, is_snapshot := is_snapshot,
      created_at := db.now }
  let ftsRow : FtsRow :=
    { rowid := chat_id, conversation_name := conversation_name,
      chat_history := chat_history_json }
  let kwRecords :=
    match keywords with
    | some ks => if ks.isEmpty then [] else ks.map (fun k => (chat_id, pyLower (pyStrip k)))
    | none => []
  (some chat_id,
   { db with characterChats := db.characterChats ++ [row],
             fts := db.fts ++ [ftsRow],
             chatKeywords := db.chatKeywords ++ kwRecords,
             nextChatId := db.nextChatId + 1,
             now := db.now + 1 })

/-- Effect of one firing of the `CharacterChats_au` trigger with new row
`c`: every FTS row whose rowid equals `c.id` gets its two columns replaced
by `c`'s. -/
def applyAuTrigger (fts : List FtsRow) (c : CharacterChatRow) : List FtsRow :=
  fts.map (fun e =>
    if e.rowid == c.id then
      { e with conversation_name := c.conversation_name, chat_history := c.chat_history }
    else e)

/-- `update_character_chat`: replaces `chat_history` of the rows matching
the id (the `CharacterChats_au` trigger fires once per updated row and
rewrites the FTS entry) and reports whether any row was updated. -/
def update_character_chat (chat_id : Nat) (chat_history : List (String × String))
    (db : DB) : Bool × DB :=
  let chat_history_json := jdumps (historyToJson chat_history)
  let updatedRows := (db.characterChats.filter (fun c => c.id == chat_id)).map
    (fun c => { c with chat_history := chat_history_json })
  let chats' := db.characterChats.map
    (fun c => if c.id == chat_id then { c with chat_history := chat_history_json } else c)
  let fts' := updatedRows.foldl applyAuTrigger db.fts
  (!updatedRows.isEmpty, { db with characterChats := chats', fts := fts' })

/-- `delete_character_chat`: deletes the rows matching the id (the
`CharacterChats_ad` trigger fires once per deleted row and removes its FTS
entry) and reports whether any row was deleted. -/
def delete_character_chat (chat_id : Nat) (db : DB) : Bool × DB :=
  let deletedRows := db.characterChats.filter (fun c => c.id == chat_id)
  let chats' := db.characterChats.filter (fun c => !(c.id == chat_id))
  let fts' := deletedRows.foldl (fun acc c => acc.filter (fun e => !(e.rowid == c.id))) db.fts
  (!deletedRows.isEmpty, { db with characterChats := chats', fts := fts' })

/-! ## Search -/

/-- The FTS5 engine facilities the SQL delegates to: the `MATCH` operator
(a predicate of the query over one indexed row) and the `rank` auxiliary
column (lower is better; `ORDER BY rank` sorts it ascending). -/
structure Fts5Engine where
  matchQ : String → FtsRow → Bool
  rank : String → FtsRow → Int

/-- One row of a search result: the three selected columns. -/
structure SearchHit where
  id : Nat
  conversation_name : String
  chat_history : String
deriving DecidableEq

/-- Insert into a rank-sorted list, keeping storage order among equal
ranks. -/
def insertByRank (key : FtsRow → Int) (x : FtsRow) : List FtsRow → List FtsRow
  | [] => [x]
  | y :: ys => if key x ≤ key y then x :: y :: ys else y :: insertByRank key x ys

/-- `ORDER BY rank`: ascending stable sort. -/
def rankSort (key : FtsRow → Int) : List FtsRow → List FtsRow
  | [] => []
  | x :: xs => insertByRank key x (rankSort key xs)

/-- The shared SELECT of the two search functions:
`FROM CharacterChats_fts JOIN CharacterChats ON fts.rowid = id WHERE fts
MATCH ? [AND row-filter] ORDER BY rank`, selecting id, conversation_name
and chat_history from `CharacterChats`. -/
def ftsJoinHits (E : Fts5Engine) (query : String) (rowFilter : CharacterChatRow → Bool)
    (db : DB) : List SearchHit :=
  (rankSort (fun e => E.rank query e) (db.fts.filter (fun e => E.matchQ query e))).filterMap
    (fun e =>
      match db.characterChats.find? (fun c => c.id == e.rowid) with
      | some c =>
        if rowFilter c then
          some { id := c.id, conversation_name := c.conversation_name,
                 chat_history := c.chat_history }
        else none
      | none => none)

/-- `search_character_chats`: a blank query short-circuits to an empty
result and an instruction message before any database access; otherwise
the FTS match runs, optionally filtered by `character_id`, and the status
reports the count and the scope. -/
def search_character_chats (E : Fts5Engine) (query : String)
    (character_id : Option Nat) (db : DB) : List SearchHit × String :=
  if pyStrip query == ("") then ([], "Please enter a search query.")
  else
    let results := ftsJoinHits E query
      (fun c => match character_id with | some cid => c.character_id == cid | none => true) db
    let status :=
      match character_id with
      | some _ => "Found " ++ toString results.length ++ " chat(s) matching '"
          ++ query ++ "' for the selected character."
      | none => "Found " ++ toString results.length ++ " chat(s) matching '"
          ++ query ++ "' across all characters."
    (results, status)

/-- The match set of `search_db` before pagination (its SELECT up to the
`ORDER BY rank`).  The caller-supplied `fields` list and raw-SQL
`where_clause` string are modelled by the engine's match predicate and an
optional row predicate. -/
def search_db_matches (E : Fts5Engine) (query : String)
    (whereFilter : Option (CharacterChatRow → Bool)) (db : DB) : List SearchHit :=
  ftsJoinHits E query (fun c => match whereFilter with | some f => f c | none => true) db

/-- `search_db`: a blank query short-circuits to an empty list before any
database access; otherwise the ranked match list is cut by
`LIMIT results_per_page OFFSET (page - 1) * results_per_page`. -/
def search_db (E : Fts5Engine) (query : String)
    (whereFilter : Option (CharacterChatRow → Bool)) (page : Nat)
    (results_per_page : Nat) (db : DB) : List SearchHit :=
  if pyStrip query == ("") then []
  else
    ((search_db_matches E query whereFilter db).drop ((page - 1) * results_per_page)).take
      results_per_page

/-! ## Keyword lookup -/

/-- `fetch_keywords_for_chats`: an empty keyword list returns `[]` before
any database access; otherwise
`SELECT DISTINCT chat_id FROM ChatKeywords WHERE keyword = ? OR ...`
(`List.dedup` is the DISTINCT). -/
def fetch_keywords_for_chats (keywords : List String) (db : DB) : List Nat :=
  if keywords.isEmpty then []
  else ((db.chatKeywords.filter (fun r => keywords.contains r.2)).map (fun r => r.1)).dedup

/-! ## The FTS index as a shadow of `CharacterChats` (C1)

The four trigger-bearing mutations of `CharacterChats` — insert via
`add_character_chat`, update via `update_character_chat`, delete via
`delete_character_chat` and the cascade inside `delete_character_card` —
are packaged as a transition system, and we show the FTS table stays the
row-wise image of the chat table, so that matching by exact content
through the index and a linear scan of the table agree. -/

/-- The FTS entry the triggers maintain for a chat row. -/
def chatToFts (c : CharacterChatRow) : FtsRow :=
  { rowid := c.id, conversation_name := c.conversation_name,
    chat_history := c.chat_history }

/-- One mutation of the `CharacterChats` table, with the arguments of the
function performing it. -/
inductive ChatMutation where
  | insertChat (character_id : Nat) (conversation_name : String)
      (chat_history : List (String × String)) (keywords : Option (List String))
      (is_snapshot : Bool)
  | updateChat (chat_id : Nat) (chat_history : List (String × String))
  | deleteChat (chat_id : Nat)
  | deleteCard (character_id : Nat)

/-- Run one mutation (its status result is dropped). -/
def applyChatMutation (db : DB) (m : ChatMutation) : DB :=
  match m with
  | .insertChat cid nm h kw snap => (add_character_chat cid nm h kw snap db).2
  | .updateChat i h => (update_character_chat i h db).2
  | .deleteChat i => (delete_character_chat i db).2
  | .deleteCard cid => (delete_character_card cid db).2

/-- Run a sequence of mutations in order. -/
def applyChatMutations (ms : List ChatMutation) (db : DB) : DB :=
  ms.foldl applyChatMutation db

/-- The index-consistency invariant: the FTS table is exactly the row-wise
image of the chat table (same order, same rowids, same content). -/
def ftsConsistent (db : DB) : Prop :=
  db.fts = db.characterChats.map chatToFts

/-- Chat ids are pairwise distinct and below the AUTOINCREMENT counter. -/
def chatIdsOk (db : DB) : Prop :=
  (db.characterChats.map (fun c => c.id)).Nodup ∧
    ∀ c ∈ db.characterChats, c.id < db.nextChatId

/-- The combined invariant maintained by the chat mutations. -/
def chatWF (db : DB) : Prop := ftsConsistent db ∧ chatIdsOk db

/-- Ids matched through the index by exact `conversation_name` or
`chat_history` content. -/
def ftsExactMatches (s : String) (db : DB) : List Nat :=
  (db.fts.filter (fun e => e.conversation_name == s || e.chat_history == s)).map
    (fun e => e.rowid)

/-- Ids a linear scan of `CharacterChats` finds for the same exact
content. -/
def scanExactMatches (s : String) (db : DB) : List Nat :=
  (db.characterChats.filter
      (fun c => c.conversation_name == s || c.chat_history == s)).map
    (fun c => c.id)

theorem ftsConsistent_exact_matches (db : DB) (h : ftsConsistent db) (s : String) :
    ftsExactMatches s db = scanExactMatches s db := by
  unfold ftsExactMatches scanExactMatches
  rw [h, List.filter_map, List.map_map]
  rfl

/-- Folding the per-row `CharacterChats_ad` trigger deletions equals one
filter over the FTS table. -/
theorem foldl_ad_trigger (ds : List CharacterChatRow) (fts : List FtsRow) :
    ds.foldl (fun acc c => acc.filter (fun e => !(e.rowid == c.id))) fts
      = fts.filter (fun e => !(ds.any (fun c => e.rowid == c.id))) := by
  induction ds generalizing fts with
  | nil => simp
  | cons d ds ih =>
    simp only [List.foldl_cons, ih, List.filter_filter, List.any_cons]
    exact List.filter_congr (fun e _ => by
      cases hde : e.rowid == d.id <;> cases hds : ds.any (fun c => e.rowid == c.id) <;> simp [hde, hds])

/-- A filter over elements that all carry the same key has at most one
element when the keys of the list are pairwise distinct. -/
theorem filter_id_eq_nil_or_singleton (chats : List CharacterChatRow) (i : Nat)
    (hnd : (chats.map (fun c => c.id)).Nodup) :
    chats.filter (fun c => c.id == i) = []
      ∨ ∃ c, c ∈ chats ∧ c.id = i ∧ chats.filter (fun c => c.id == i) = [c] := by
  induction chats with
  | nil => exact Or.inl rfl
  | cons a l ih =>
    simp only [List.map_cons, List.nodup_cons] at hnd
    rcases hnd with ⟨ha, hl⟩
    by_cases hai : a.id = i
    · refine Or.inr ⟨a, List.mem_cons_self a l, hai, ?_⟩
      have hrest : l.filter (fun c => c.id == i) = [] := by
        rw [List.filter_eq_nil_iff]
        intro c hc hci
        apply ha
        have hcid : c.id = i := by simpa using hci
        rw [hai, ← hcid]
        exact List.mem_map_of_mem (fun c => c.id) hc
      simp [List.filter_cons, hai, hrest]
    · have : (a.id == i) = false := by simp [hai]
      rcases ih hl with h0 | ⟨c, hc, hci, hfil⟩
      · exact Or.inl (by simp [List.filter_cons, this, h0])
      · exact Or.inr ⟨c, List.mem_cons_of_mem a hc, hci, by simp [List.filter_cons, this, hfil]⟩

/-- `add_character_chat` preserves the invariant: the `_ai` trigger adds
exactly the shadow of the inserted row. -/
theorem chatWF_insert (db : DB) (wf : chatWF db) (cid : Nat) (nm : String)
    (h : List (String × String)) (kw : Option (List String)) (snap : Bool) :
    chatWF (add_character_chat cid nm h kw snap db).2 := by
  rcases wf with ⟨hc, hnd, hbd⟩
  refine ⟨?_, ?_, ?_⟩
  · show (add_character_chat cid nm h kw snap db).2.fts
      = ((add_character_chat cid nm h kw snap db).2.characterChats).map chatToFts
    simp only [add_character_chat]
    rw [hc, List.map_append]
    rfl
  · show (((add_character_chat cid nm h kw snap db).2.characterChats).map (fun c => c.id)).Nodup
    simp only [add_character_chat]
    rw [List.map_append]
    refine ((List.perm_append_singleton _ _).nodup_iff).mpr (List.nodup_cons.mpr ⟨?_, hnd⟩)
    intro hmem
    rcases List.mem_map.mp hmem with ⟨c, hcm, hcid⟩
    exact absurd hcid (Nat.ne_of_lt (hbd c hcm))
  · intro c hcm
    simp only [add_character_chat] at hcm ⊢
    rcases List.mem_append.mp hcm with hl | hr
    · exact Nat.lt_succ_of_lt (hbd c hl)
    · simp only [List.mem_singleton] at hr
      subst hr
      exact Nat.lt_succ_self _

/-- Unfold a natural-number boolean equality test. -/
theorem nat_beq_true {a b : Nat} (h : (a == b) = true) : a = b := by simpa using h

/-- `update_character_chat` preserves the invariant: the `_au` trigger
rewrites exactly the shadow of the updated row. -/
theorem chatWF_update (db : DB) (wf : chatWF db) (i : Nat)
    (h : List (String × String)) :
    chatWF (update_character_chat i h db).2 := by
  rcases wf with ⟨hc, hnd, hbd⟩
  have hid : ∀ c : CharacterChatRow,
      (if c.id == i then { c with chat_history := jdumps (historyToJson h) } else c).id = c.id := by
    intro c
    by_cases hci : (c.id == i) = true <;> simp [hci]
  refine ⟨?_, ?_, ?_⟩
  · show (update_character_chat i h db).2.fts
      = ((update_character_chat i h db).2.characterChats).map chatToFts
    simp only [update_character_chat]
    rw [hc, List.map_map]
    rcases filter_id_eq_nil_or_singleton db.characterChats i hnd with hfil | ⟨c, hcm, hci, hfil⟩
    · rw [hfil]
      show List.map chatToFts db.characterChats = _
      refine List.map_congr_left (fun x hx => ?_)
      have hxid : (x.id == i) = false := by
        have := List.filter_eq_nil_iff.mp hfil x hx
        simpa using this
      simp [Function.comp, hxid]
    · rw [hfil]
      show applyAuTrigger (List.map chatToFts db.characterChats) _ = _
      unfold applyAuTrigger
      rw [List.map_map]
      refine List.map_congr_left (fun x hx => ?_)
      by_cases hxid : (x.id == i) = true
      · have hxc : x = c := by
          refine List.inj_on_of_nodup_map hnd hx hcm ?_
          show x.id = c.id
          rw [hci]
          exact nat_beq_true hxid
        subst hxc
        simp [Function.comp, chatToFts, hxid, hci]
      · have hxid' : (x.id == i) = false := Bool.eq_false_iff.mpr hxid
        have hxc : (x.id == c.id) = false := by
          rw [hci]
          exact hxid'
        simp [Function.comp, chatToFts, hxid', hxc]
  · show ((((update_character_chat i h db).2.characterChats)).map (fun c => c.id)).Nodup
    simp only [update_character_chat]
    rw [List.map_map]
    have : ((fun c : CharacterChatRow => c.id) ∘
        (fun c => if c.id == i then { c with chat_history := jdumps (historyToJson h) } else c))
        = fun c : CharacterChatRow => c.id := funext (fun c => hid c)
    rw [this]
    exact hnd
  · intro c hcm
    simp only [update_character_chat] at hcm ⊢
    rcases List.mem_map.mp hcm with ⟨x, hxm, hxc⟩
    have : c.id = x.id := by rw [← hxc]; exact hid x
    rw [this]
    exact hbd x hxm

/-- `delete_character_chat` preserves the invariant: the `_ad` trigger
removes exactly the shadows of the deleted rows. -/
theorem chatWF_deleteChat (db : DB) (wf : chatWF db) (i : Nat) :
    chatWF (delete_character_chat i db).2 := by
  rcases wf with ⟨hc, hnd, hbd⟩
  refine ⟨?_, ?_, ?_⟩
  · show (delete_character_chat i db).2.fts
      = ((delete_character_chat i db).2.characterChats).map chatToFts
    simp only [delete_character_chat]
    rw [hc, foldl_ad_trigger, List.filter_map]
    congr 1
    refine List.filter_congr (fun x hx => ?_)
    simp only [Function.comp_apply]
    congr 1
    by_cases hxid : (x.id == i) = true
    · rw [hxid, List.any_eq_true]
      exact ⟨x, List.mem_filter.mpr ⟨hx, hxid⟩, by simp [chatToFts]⟩
    · have hxid' : (x.id == i) = false := Bool.eq_false_iff.mpr hxid
      rw [hxid', List.any_eq_false]
      intro c hcmem
      have hcid : c.id = i := nat_beq_true (List.mem_filter.mp hcmem).2
      simp only [chatToFts]
      intro hxc
      exact hxid (by rw [show x.id = c.id from nat_beq_true hxc, hcid]; simp)
  · show ((((delete_character_chat i db).2.characterChats)).map (fun c => c.id)).Nodup
    simp only [delete_character_chat]
    exact ((List.filter_sublist db.characterChats).map (fun c => c.id)).nodup hnd
  · intro c hcm
    simp only [delete_character_chat] at hcm ⊢
    exact hbd c (List.mem_of_mem_filter hcm)

/-- The cascade inside `delete_character_card` preserves the invariant:
the `_ad` trigger fires for every chat of the deleted character. -/
theorem chatWF_deleteCard (db : DB) (wf : chatWF db) (cid : Nat) :
    chatWF (delete_character_card cid db).2 := by
  rcases wf with ⟨hc, hnd, hbd⟩
  refine ⟨?_, ?_, ?_⟩
  · show (delete_character_card cid db).2.fts
      = ((delete_character_card cid db).2.characterChats).map chatToFts
    simp only [delete_character_card]
    rw [hc, foldl_ad_trigger, List.filter_map]
    congr 1
    refine List.filter_congr (fun x hx => ?_)
    simp only [Function.comp_apply]
    congr 1
    by_cases hxc : (x.character_id == cid) = true
    · rw [hxc, List.any_eq_true]
      exact ⟨x, List.mem_filter.mpr ⟨hx, hxc⟩, by simp [chatToFts]⟩
    · have hxc' : (x.character_id == cid) = false := Bool.eq_false_iff.mpr hxc
      rw [hxc', List.any_eq_false]
      intro c hcmem
      simp only [chatToFts]
      intro hxid
      have hcx : x = c := List.inj_on_of_nodup_map hnd hx
        (List.mem_of_mem_filter hcmem) (nat_beq_true hxid)
      exact hxc (by rw [hcx]; exact (List.mem_filter.mp hcmem).2)
  · show ((((delete_character_card cid db).2.characterChats)).map (fun c => c.id)).Nodup
    simp only [delete_character_card]
    exact ((List.filter_sublist db.characterChats).map (fun c => c.id)).nodup hnd
  · intro c hcm
    simp only [delete_character_card] at hcm ⊢
    exact hbd c (List.mem_of_mem_filter hcm)

/-- Any single chat mutation preserves the invariant. -/
theorem chatWF_mutation (db : DB) (wf : chatWF db) (m : ChatMutation) :
    chatWF (applyChatMutation db m) := by
  cases m with
  | insertChat cid nm h kw snap => exact chatWF_insert db wf cid nm h kw snap
  | updateChat i h => exact chatWF_update db wf i h
  | deleteChat i => exact chatWF_deleteChat db wf i
  | deleteCard cid => exact chatWF_deleteCard db wf cid

/-- Any sequence of chat mutations preserves the invariant. -/
theorem chatWF_mutations (ms : List ChatMutation) (db : DB) (wf : chatWF db) :
    chatWF (applyChatMutations ms db) := by
  induction ms generalizing db with
  | nil => exact wf
  | cons m ms ih => exact ih (applyChatMutation db m) (chatWF_mutation db wf m)

/-- The freshly initialized store satisfies the invariant. -/
theorem chatWF_initial : chatWF initialDB := by
  refine ⟨rfl, ?_, ?_⟩ <;> simp [initialDB]

/-- C1: for every sequence of chat mutations (insert via
`add_character_chat`, update via `update_character_chat`, delete via
`delete_character_chat` or the cascade of `delete_character_card`), after
each operation the FTS table is exactly the row-wise image of
`CharacterChats` — so the index has no independent write path beyond the
three triggers modelled inside those operations — and the ids matched
through the index for an exact `conversation_name` or `chat_history`
content equal the ids a linear scan of `CharacterChats` finds.  (Any
point "after each operation" is `applyChatMutations ms initialDB` for the
corresponding prefix `ms`, and `ms` here is universally quantified.) -/
theorem fts_index_consistency (ms : List ChatMutation) (s : String) :
    ftsConsistent (applyChatMutations ms initialDB) ∧
    ftsExactMatches s (applyChatMutations ms initialDB)
      = scanExactMatches s (applyChatMutations ms initialDB) := by
  have wf := chatWF_mutations ms initialDB chatWF_initial
  exact ⟨wf.1, ftsConsistent_exact_matches _ wf.1 s⟩

/-- C3 (code bug): `add_character_chat` with a `character_id` that no
`CharacterCards` row carries does NOT fail: on the freshly initialized
store (which has no characters at all, in particular none with id 999)
it returns the new chat id 1 and inserts the chat row referencing the
nonexistent character.  The foreign-key clause of the schema is inert
because `sqlite3` connections default to `PRAGMA foreign_keys = OFF` and
only `initialize_database`'s own connection ever turns it on. -/
theorem add_character_chat_ignores_missing_character :
    initialDB.characterCards = []
      ∧ (add_character_chat 999 ("intro") [("user", "hi")] none false initialDB).1 = some 1
      ∧ ((add_character_chat 999 ("intro") [("user", "hi")] none false
            initialDB).2.characterChats.filter (fun c => c.character_id == 999)).length = 1 := by
  refine ⟨rfl, rfl, ?_⟩
  rfl

/-- C6 (code bug): every call of `update_character_card` raises
`sqlite3.OperationalError` — the SET clause of its UPDATE names the
column `first_message`, which is not a column of `CharacterCards` (the
schema says `first_mes`), and the function catches only
`sqlite3.IntegrityError` — so it can never report `true` or `false`. -/
theorem update_character_card_always_raises (character_id : Nat)
    (card_data : CardInput) (db : DB) :
    update_character_card character_id card_data db
      = .error ("no such column: first_message") := by
  rfl

/-- C9: `fetch_keywords_for_chats` returns a duplicate-free list holding
exactly the chat ids that have a `ChatKeywords` row whose keyword equals
one of the given keywords (logical OR across the input), and for the
empty input it returns `[]` whatever the store holds (no query runs). -/
theorem fetch_keywords_for_chats_spec (keywords : List String) (db : DB) :
    (fetch_keywords_for_chats keywords db).Nodup
      ∧ (∀ i, i ∈ fetch_keywords_for_chats keywords db
          ↔ ∃ kw, kw ∈ keywords ∧ (i, kw) ∈ db.chatKeywords)
      ∧ (∀ db2 : DB, fetch_keywords_for_chats [] db2 = []) := by
  refine ⟨?_, ?_, fun db2 => rfl⟩
  · unfold fetch_keywords_for_chats
    split
    · exact List.nodup_nil
    · exact List.nodup_dedup _
  · intro i
    unfold fetch_keywords_for_chats
    split
    · next hemp =>
      simp only [List.isEmpty_iff] at hemp
      subst hemp
      simp
    · rw [List.mem_dedup, List.mem_map]
      constructor
      · rintro ⟨⟨j, kw⟩, hmem, hj⟩
        rcases List.mem_filter.mp hmem with ⟨hrow, hkw⟩
        exact ⟨kw, by simpa using hkw, by simpa [← hj] using hrow⟩
      · rintro ⟨kw, hkw, hrow⟩
        exact ⟨(i, kw), List.mem_filter.mpr ⟨hrow, by simpa using hkw⟩, rfl⟩

/-- C10: `get_character_card_by_id` hands a dictionary argument back
unchanged whatever the store holds, and answers `None` for an argument
that is neither an `int` nor a `dict`. -/
theorem get_character_card_by_id_dynamic_typing (d : CardInput) (db db2 : DB) :
    get_character_card_by_id (.byDict d) db = some (.dict d)
      ∧ get_character_card_by_id .invalid db2 = none := ⟨rfl, rfl⟩

/-- C2: deleting a character removes, in the one transaction the function
commits, all its chats, their FTS entries and the character row itself,
and reports `true`; when no character row with the id exists it reports
`false` (the rowcount the function returns is that of its last DELETE,
the one on `CharacterCards`). -/
theorem delete_character_card_cascade (db : DB) (cid : Nat)
    (hcard : ∃ r, r ∈ db.characterCards ∧ r.id = cid)
    (hchat : ∃ c, c ∈ db.characterChats ∧ c.character_id = cid) :
    (delete_character_card cid db).1 = true
      ∧ (delete_character_card cid db).2.characterChats.filter
          (fun c => c.character_id == cid) = []
      ∧ (∀ e ∈ (delete_character_card cid db).2.fts,
          ∀ c ∈ db.characterChats, c.character_id = cid → e.rowid ≠ c.id)
      ∧ (delete_character_card cid db).2.characterCards.filter
          (fun r => r.id == cid) = []
      ∧ (∀ db2 : DB, ∀ cid2 : Nat,
          (∀ r ∈ db2.characterCards, r.id ≠ cid2) →
          (delete_character_card cid2 db2).1 = false) := by
  refine ⟨?_, ?_, ?_, ?_, ?_⟩
  · show db.characterCards.any (fun r => r.id == cid) = true
    rcases hcard with ⟨r, hr, hrid⟩
    exact List.any_eq_true.mpr ⟨r, hr, by simp [hrid]⟩
  · rw [List.filter_eq_nil_iff]
    intro c hc
    simp only [delete_character_card] at hc
    have := (List.mem_filter.mp hc).2
    simp only [Bool.not_eq_eq_eq_not, Bool.not_true] at this
    simp [this]
  · intro e he c hc hcid
    simp only [delete_character_card, foldl_ad_trigger] at he
    have hnotany := (List.mem_filter.mp he).2
    simp only [Bool.not_eq_eq_eq_not, Bool.not_true, List.any_eq_false] at hnotany
    have := hnotany c (List.mem_filter.mpr ⟨hc, by simp [hcid]⟩)
    simpa using this
  · rw [List.filter_eq_nil_iff]
    intro r hr
    simp only [delete_character_card] at hr
    have := (List.mem_filter.mp hr).2
    simp only [Bool.not_eq_eq_eq_not, Bool.not_true] at this
    simp [this]
  · intro db2 cid2 hnone
    show db2.characterCards.any (fun r => r.id == cid2) = false
    rw [List.any_eq_false]
    intro r hr
    simpa using hnone r hr

/-- A concrete card input used by witnesses: named "Ada", with an `image`
key present (holding SQL NULL), every other key absent. -/
def adaCard : CardInput := { name := some ("Ada"), image := some none }

/-- A small concrete store for the witnesses: one character "Ada" (id 1)
holding one chat "intro" (id 1). -/
def sampleDB : DB :=
  (add_character_chat 1 ("intro") [("user", "hi"), ("Ada", "hello")] none false
    (add_character_card adaCard initialDB).2).2

theorem delete_character_card_cascade_witness :
    (delete_character_card 1 sampleDB).1 = true
      ∧ (delete_character_card 1 sampleDB).2.characterChats.filter
          (fun c => c.character_id == 1) = []
      ∧ (∀ e ∈ (delete_character_card 1 sampleDB).2.fts,
          ∀ c ∈ sampleDB.characterChats, c.character_id = 1 → e.rowid ≠ c.id)
      ∧ (delete_character_card 1 sampleDB).2.characterCards.filter
          (fun r => r.id == 1) = []
      ∧ (∀ db2 : DB, ∀ cid2 : Nat,
          (∀ r ∈ db2.characterCards, r.id ≠ cid2) →
          (delete_character_card cid2 db2).1 = false) :=
  delete_character_card_cascade sampleDB 1 (by decide) (by decide)

/-- C4 counterexample: on the fresh store no row is named "Ada", yet
`add_character_card` on a card that has no `image` key returns `None` and
leaves the store unchanged instead of inserting a row and returning its
id (`parsed_card['image']` raises a `KeyError` that the blanket handler
converts to `None`). -/
theorem add_character_card_missing_image_returns_none :
    initialDB.characterCards.find? (fun r => r.name == ("Ada")) = none
      ∧ (add_character_card { name := some ("Ada") } initialDB).1 = none
      ∧ (add_character_card { name := some ("Ada") } initialDB).2 = initialDB :=
  ⟨rfl, rfl, rfl⟩

/-- C4 (amended): provided the input carries an `image` key,
`add_character_card` looks the character up by its unique name, inserts a
new row and returns the fresh id when the name is absent, and overwrites
all mutable fields of the existing row (full replace) and returns its id
when the name is present. -/
theorem add_character_card_upsert (card : CardInput) (db : DB)
    (img : Option (List Nat)) (himg : card.image = some img) :
    (db.characterCards.find? (fun r => r.name == (parse_character_card card).name) = none →
      add_character_card card db
        = (some db.nextCardId,
           { db with
             characterCards := db.characterCards ++
               [{ id := db.nextCardId, name := (parse_character_card card).name,
                  description := (parse_character_card card).description,
                  personality := (parse_character_card card).personality,
                  scenario := (parse_character_card card).scenario, image := img,
                  post_history_instructions := (parse_character_card card).post_history_instructions,
                  first_mes := (parse_character_card card).first_mes,
                  mes_example := (parse_character_card card).mes_example,
                  creator_notes := (parse_character_card card).creator_notes,
                  system_prompt := (parse_character_card card).system_prompt,
                  alternate_greetings := (parse_character_card card).alternate_greetings,
                  tags := (parse_character_card card).tags,
                  creator := (parse_character_card card).creator,
                  character_version := (parse_character_card card).character_version,
                  extensions := (parse_character_card card).extensions,
                  created_at := db.now }],
             nextCardId := db.nextCardId + 1, now := db.now + 1 }))
    ∧ (∀ r, db.characterCards.find? (fun r0 => r0.name == (parse_character_card card).name) = some r →
        add_character_card card db
          = (some r.id,
             { db with characterCards := db.characterCards.map (fun r0 =>
                 if r0.id == r.id then
                    overwriteCard r0 (parse_character_card card) img else r0) })) := by
  have himg' : (parse_character_card card).image = some img := himg
  constructor
  · intro hfind
    simp only [add_character_card]
    rw [hfind, himg']
  · intro r hfind
    simp only [add_character_card]
    rw [hfind, himg']

theorem add_character_card_upsert_witness :
    adaCard.image = some none
    ∧ add_character_card adaCard initialDB
      = (some initialDB.nextCardId,
         { initialDB with
           characterCards := initialDB.characterCards ++
             [{ id := initialDB.nextCardId, name := (parse_character_card adaCard).name,
                description := (parse_character_card adaCard).description,
                personality := (parse_character_card adaCard).personality,
                scenario := (parse_character_card adaCard).scenario, image := none,
                post_history_instructions := (parse_character_card adaCard).post_history_instructions,
                first_mes := (parse_character_card adaCard).first_mes,
                mes_example := (parse_character_card adaCard).mes_example,
                creator_notes := (parse_character_card adaCard).creator_notes,
                system_prompt := (parse_character_card adaCard).system_prompt,
                alternate_greetings := (parse_character_card adaCard).alternate_greetings,
                tags := (parse_character_card adaCard).tags,
                creator := (parse_character_card adaCard).creator,
                character_version := (parse_character_card adaCard).character_version,
                extensions := (parse_character_card adaCard).extensions,
                created_at := initialDB.now }],
           nextCardId := initialDB.nextCardId + 1, now := initialDB.now + 1 }) :=
  ⟨rfl, (add_character_card_upsert adaCard initialDB none rfl).1 rfl⟩

/-- C8: a query that is empty or all whitespace makes
`search_character_chats` return the empty result with the instruction
status and makes `search_db` return the empty list, both before any
database (hence index) access — the store arguments are arbitrary and the
outputs fixed. -/
theorem blank_query_search (E : Fts5Engine) (query : String) (hq : pyStrip query = "")
    (character_id : Option Nat) (whereFilter : Option (CharacterChatRow → Bool))
    (page results_per_page : Nat) (db db2 : DB) :
    search_character_chats E query character_id db
        = ([], "Please enter a search query.")
      ∧ search_db E query whereFilter page results_per_page db2 = [] := by
  constructor
  · unfold search_character_chats
    rw [if_pos (by simp [hq])]
  · unfold search_db
    rw [if_pos (by simp [hq])]

theorem blank_query_search_witness :
    pyStrip ("  ") = ("")
    ∧ (search_character_chats
          { matchQ := fun _ _ => true, rank := fun _ _ => 0 } ("  ") none sampleDB
        = ([], "Please enter a search query.")
      ∧ search_db { matchQ := fun _ _ => true, rank := fun _ _ => 0 } ("  ")
          none 1 5 sampleDB = []) :=
  ⟨by decide, blank_query_search _ ("  ") (by decide) none none 1 5 sampleDB sampleDB⟩

/-! ## Pagination (C7) -/

/-- Concatenating the first `m` pages of size `n` of a list gives its
first `m * n` elements. -/
theorem join_pages_take {α : Type} (l : List α) (n : Nat) (m : Nat) :
    ((List.range m).map (fun k => (l.drop (k * n)).take n)).flatten = l.take (m * n) := by
  induction m with
  | zero => simp
  | succ m ih =>
    rw [List.range_succ, List.map_append, List.flatten_append]
    simp only [List.map_cons, List.map_nil, List.flatten_cons, List.flatten_nil,
      List.append_nil]
    rw [ih, Nat.succ_mul, List.take_add]

/-- `ceil (N / n) * n` covers `N`. -/
theorem ceil_mul_ge (N n : Nat) (hn : 0 < n) : N ≤ (N + n - 1) / n * n := by
  rw [Nat.mul_comm]
  have h1 := Nat.div_add_mod (N + n - 1) n
  have h2 : (N + n - 1) % n < n := Nat.mod_lt _ hn
  omega

/-- Pages `0 .. ceil (length / n) - 1` of size `n` concatenate back to
the whole list: no gaps, nothing beyond the list. -/
theorem pages_flatten {α : Type} (l : List α) (n : Nat) (hn : 0 < n) :
    ((List.range ((l.length + n - 1) / n)).map (fun k => (l.drop (k * n)).take n)).flatten
      = l := by
  rw [join_pages_take]
  exact List.take_of_length_le (ceil_mul_ge l.length n hn)

/-- C7: for a non-blank query matching `N` chats and `results_per_page`
5, requesting pages 1 through `ceil (N / 5)` of `search_db` (offset
`(page - 1) * 5`, limit 5) produces pages whose id lists concatenate to
exactly the id list of the full match set (no gaps, no elements from
outside it) and which are pairwise disjoint (no overlaps), the ids of the
match set being pairwise distinct. -/
theorem search_db_pagination (E : Fts5Engine) (query : String)
    (whereFilter : Option (CharacterChatRow → Bool)) (db : DB)
    (hq : (pyStrip query == ("")) = false)
    (hnd : ((search_db_matches E query whereFilter db).map (fun h => h.id)).Nodup) :
    ((List.range (((search_db_matches E query whereFilter db).length + 5 - 1) / 5)).map
        (fun k => (search_db E query whereFilter (k + 1) 5 db).map (fun h => h.id))).flatten
      = (search_db_matches E query whereFilter db).map (fun h => h.id)
    ∧ ((List.range (((search_db_matches E query whereFilter db).length + 5 - 1) / 5)).map
        (fun k => (search_db E query whereFilter (k + 1) 5 db).map (fun h => h.id))).Pairwise
        List.Disjoint := by
  have hq' : ¬((pyStrip query == ("")) = true) := by simp [hq]
  have hpage : ∀ k : Nat,
      (search_db E query whereFilter (k + 1) 5 db).map (fun h => h.id)
        = (((search_db_matches E query whereFilter db).map
            (fun h => h.id)).drop (k * 5)).take 5 := by
    intro k
    unfold search_db
    rw [if_neg hq', Nat.add_sub_cancel, List.map_take, List.map_drop]
  have hmaps :
      (List.range (((search_db_matches E query whereFilter db).length + 5 - 1) / 5)).map
          (fun k => (search_db E query whereFilter (k + 1) 5 db).map (fun h => h.id))
        = (List.range ((((search_db_matches E query whereFilter db).map
              (fun h => h.id)).length + 5 - 1) / 5)).map
            (fun k => ((((search_db_matches E query whereFilter db).map
              (fun h => h.id))).drop (k * 5)).take 5) := by
    rw [List.length_map]
    exact List.map_congr_left (fun k _ => hpage k)
  constructor
  · rw [hmaps]
    exact pages_flatten _ 5 (by decide)
  · rw [hmaps]
    refine (List.nodup_flatten.mp ?_).2
    rw [pages_flatten _ 5 (by decide)]
    exact hnd

/-- A store holding seven chats (ids 1..7), built through the mutation
system, for the pagination witness. -/
def pagDB : DB :=
  applyChatMutations (List.replicate 7 (.insertChat 1 ("hello") [] none false)) initialDB

/-- The engine every row matches with one constant rank, for witnesses. -/
def matchAllEngine : Fts5Engine := { matchQ := fun _ _ => true, rank := fun _ _ => 0 }

theorem search_db_pagination_witness :
    ((pyStrip ("hello") == ("")) = false
      ∧ ((search_db_matches matchAllEngine ("hello") none pagDB).map
          (fun h => h.id)).Nodup)
    ∧ (((List.range (((search_db_matches matchAllEngine ("hello") none pagDB).length
            + 5 - 1) / 5)).map
          (fun k => (search_db matchAllEngine ("hello") none (k + 1) 5 pagDB).map
            (fun h => h.id))).flatten
        = (search_db_matches matchAllEngine ("hello") none pagDB).map (fun h => h.id)
      ∧ ((List.range (((search_db_matches matchAllEngine ("hello") none pagDB).length
            + 5 - 1) / 5)).map
          (fun k => (search_db matchAllEngine ("hello") none (k + 1) 5 pagDB).map
            (fun h => h.id))).Pairwise List.Disjoint) :=
  ⟨⟨by decide, by decide⟩,
    search_db_pagination matchAllEngine ("hello") none pagDB (by decide) (by decide)⟩

/-! ## `json.loads` (deserialization, for the round-trip law C5) -/

/-- The whitespace characters the JSON grammar (and `json.loads`) skips
between tokens. -/
def isJsonWs (c : Char) : Bool := c = ' ' || c = '\t' || c = '\n' || c = '\r'

/-- Skip leading JSON whitespace. -/
def skipJsonWs : List Char → List Char
  | [] => []
  | c :: cs => if isJsonWs c then skipJsonWs cs else c :: cs

/-- Value of one hexadecimal digit (both cases accepted, as in
`json.loads`). -/
def hexVal (c : Char) : Option Nat :=
  if '0' ≤ c ∧ c ≤ '9' then some (c.toNat - 48)
  else if 'a' ≤ c ∧ c ≤ 'f' then some (c.toNat - 87)
  else if 'A' ≤ c ∧ c ≤ 'F' then some (c.toNat - 55)
  else none

/-- The single-character JSON escapes. -/
def unescapeChar (e : Char) : Option Char :=
  if e = '"' then some '"'
  else if e = '\\' then some '\\'
  else if e = '/' then some '/'
  else if e = 'b' then some (Char.ofNat 8)
  else if e = 'f' then some (Char.ofNat 12)
  else if e = 'n' then some (Char.ofNat 10)
  else if e = 'r' then some (Char.ofNat 13)
  else if e = 't' then some (Char.ofNat 9)
  else none

/-- Parse a JSON string body up to (and consuming) the closing quote,
decoding backslash and `\uXXXX` escapes. -/
def parseStringBody : List Char → Option (List Char × List Char)
  | [] => none
  | c :: cs =>
    if c = '"' then some ([], cs)
    else if c = '\\' then
      match cs with
      | 'u' :: a :: b :: c2 :: d :: cs2 =>
        (match hexVal a, hexVal b, hexVal c2, hexVal d with
         | some x1, some x2, some x3, some x4 =>
           (parseStringBody cs2).map
             (fun r => (Char.ofNat (((x1 * 16 + x2) * 16 + x3) * 16 + x4) :: r.1, r.2))
         | _, _, _, _ => none)
      | e :: cs2 =>
        (match unescapeChar e with
         | some u => (parseStringBody cs2).map (fun r => (u :: r.1, r.2))
         | none => none)
      | [] => none
    else (parseStringBody cs).map (fun r => (c :: r.1, r.2))

/-- Longest digit prefix and the remainder. -/
def takeDigits : List Char → List Char × List Char
  | [] => ([], [])
  | c :: cs =>
    if c.isDigit then
      ((c :: (takeDigits cs).1), (takeDigits cs).2)
    else ([], c :: cs)

/-- Decimal value of a digit string. -/
def digitsToNat (ds : List Char) : Nat :=
  ds.foldl (fun a c => a * 10 + (c.toNat - 48)) 0

/-- Parse a nonempty digit run greedily. -/
def parseDigits (cs : List Char) : Option (Nat × List Char) :=
  match takeDigits cs with
  | ([], _) => none
  | (ds, rest) => some (digitsToNat ds, rest)

mutual

/-- Recursive-descent JSON value parser (the grammar `json.loads`
accepts, restricted to the integer numbers `jdumps` emits).  `fuel`
bounds the recursion depth; `jloads` supplies one more than the input
length, which is always enough. -/
def parseVal : Nat → List Char → Option (JValue × List Char)
  | 0, _ => none
  | fuel + 1, cs =>
    match skipJsonWs cs with
    | 'n' :: 'u' :: 'l' :: 'l' :: rest => some (.jnull, rest)
    | 't' :: 'r' :: 'u' :: 'e' :: rest => some (.jbool true, rest)
    | 'f' :: 'a' :: 'l' :: 's' :: 'e' :: rest => some (.jbool false, rest)
    | '"' :: rest => (parseStringBody rest).map (fun r => (.jstr r.1, r.2))
    | '-' :: rest => (parseDigits rest).map (fun r => (.jnum (-(r.1 : Int)), r.2))
    | '[' :: rest =>
      (match skipJsonWs rest with
       | c2 :: rest2 =>
         if c2 = ']' then some (.jarr [], rest2)
         else (parseArrItems fuel (c2 :: rest2)).map (fun r => (.jarr r.1, r.2))
       | [] => none)
    | c :: rest =>
      if c = lbrace then
        (match skipJsonWs rest with
         | c2 :: rest2 =>
           if c2 = rbrace then some (.jobj [], rest2)
           else (parseObjItems fuel (c2 :: rest2)).map (fun r => (.jobj r.1, r.2))
         | [] => none)
      else if c.isDigit then
        (parseDigits (c :: rest)).map (fun r => (.jnum (r.1 : Int), r.2))
      else none
    | [] => none

/-- One or more comma-separated array elements up to (and consuming) the
closing bracket. -/
def parseArrItems : Nat → List Char → Option (List JValue × List Char)
  | 0, _ => none
  | fuel + 1, cs =>
    match parseVal fuel cs with
    | none => none
    | some (v, cs1) =>
      match skipJsonWs cs1 with
      | c :: cs2 =>
        if c = ',' then
          (match parseArrItems fuel cs2 with
           | none => none
           | some (vs, cs3) => some (v :: vs, cs3))
        else if c = ']' then some ([v], cs2)
        else none
      | [] => none

/-- One or more comma-separated `"key": value` members up to (and
consuming) the closing brace. -/
def parseObjItems : Nat → List Char → Option (List (List Char × JValue) × List Char)
  | 0, _ => none
  | fuel + 1, cs =>
    match skipJsonWs cs with
    | '"' :: cs0 =>
      (match parseStringBody cs0 with
       | none => none
       | some (k, cs1) =>
         match skipJsonWs cs1 with
         | ':' :: cs2 =>
           (match parseVal fuel cs2 with
            | none => none
            | some (v, cs3) =>
              match skipJsonWs cs3 with
              | c :: cs4 =>
                if c = ',' then
                  (match parseObjItems fuel cs4 with
                   | none => none
                   | some (ps, cs5) => some ((k, v) :: ps, cs5))
                else if c = rbrace then some ([(k, v)], cs4) else none
              | [] => none)
         | _ => none)
    | _ => none

end

/-- `json.loads`: parse one value, allow only trailing whitespace. -/
def jloads (s : String) : Option JValue :=
  match parseVal (s.data.length + 1) s.data with
  | some (v, rest) => if skipJsonWs rest = [] then some v else none
  | none => none

/-! ## Round-trip of `jdumps` / `jloads` -/

theorem skipJsonWs_not_ws (c : Char) (cs : List Char) (h : isJsonWs c = false) :
    skipJsonWs (c :: cs) = c :: cs := by
  simp [skipJsonWs, h]

theorem digitChar_isDigit : ∀ m, m < 10 → (digitChar m).isDigit = true := by decide

theorem digitChar_toNat : ∀ m, m < 10 → (digitChar m).toNat = 48 + m := by decide

theorem natToChars_head (n : Nat) :
    ∃ d t, natToChars n = d :: t ∧ d.isDigit = true := by
  induction n using Nat.strong_induction_on with
  | _ n ih =>
    rw [natToChars]
    split
    · next h => exact ⟨digitChar n, [], rfl, digitChar_isDigit n h⟩
    · next h =>
      have hlt : n / 10 < n :=
        Nat.div_lt_self (Nat.lt_of_lt_of_le (by decide) (Nat.le_of_not_lt h)) (by decide)
      obtain ⟨d, t, hd, hdig⟩ := ih (n / 10) hlt
      exact ⟨d, t ++ [digitChar (n % 10)], by rw [hd]; rfl, hdig⟩

theorem natToChars_digits (n : Nat) : ∀ c ∈ natToChars n, c.isDigit = true := by
  induction n using Nat.strong_induction_on with
  | _ n ih =>
    rw [natToChars]
    split
    · next h =>
      intro c hc
      simp only [List.mem_singleton] at hc
      subst hc
      exact digitChar_isDigit n h
    · next h =>
      have hlt : n / 10 < n :=
        Nat.div_lt_self (Nat.lt_of_lt_of_le (by decide) (Nat.le_of_not_lt h)) (by decide)
      intro c hc
      rcases List.mem_append.mp hc with hl | hr
      · exact ih (n / 10) hlt c hl
      · simp only [List.mem_singleton] at hr
        subst hr
        exact digitChar_isDigit (n % 10) (Nat.mod_lt _ (by decide))

/-- Whether a character list does not begin with a decimal digit (the
boundary condition a greedy number parse needs). -/
def nonDigitStart : List Char → Prop
  | [] => True
  | c :: _ => c.isDigit = false

theorem takeDigits_append (ds rest : List Char) (hds : ∀ c ∈ ds, c.isDigit = true)
    (hrest : nonDigitStart rest) : takeDigits (ds ++ rest) = (ds, rest) := by
  induction ds with
  | nil =>
    cases rest with
    | nil => rfl
    | cons c cs =>
      have : c.isDigit = false := hrest
      simp [takeDigits, this]
  | cons d ds ih =>
    have hd : d.isDigit = true := hds d (List.mem_cons_self d ds)
    have ihr := ih (fun c hc => hds c (List.mem_cons_of_mem d hc))
    simp [takeDigits, hd, ihr]

theorem digitsToNat_go (n : Nat) :
    ∀ a : Nat, (natToChars n).foldl (fun a c => a * 10 + (c.toNat - 48)) a
      = a * 10 ^ (natToChars n).length + n := by
  induction n using Nat.strong_induction_on with
  | _ n ih =>
    intro a
    rw [natToChars]
    split
    · next h =>
      simp only [List.foldl_cons, List.foldl_nil, List.length_singleton]
      rw [digitChar_toNat n h, pow_one]
      omega
    · next h =>
      have hlt : n / 10 < n :=
        Nat.div_lt_self (Nat.lt_of_lt_of_le (by decide) (Nat.le_of_not_lt h)) (by decide)
      rw [List.foldl_append, ih (n / 10) hlt a]
      simp only [List.foldl_cons, List.foldl_nil, List.length_append,
        List.length_singleton]
      rw [digitChar_toNat (n % 10) (Nat.mod_lt _ (by decide)),
        Nat.add_sub_cancel_left]
      have hdm := Nat.div_add_mod n 10
      calc (a * 10 ^ (natToChars (n / 10)).length + n / 10) * 10 + n % 10
          = a * (10 ^ (natToChars (n / 10)).length * 10) + (10 * (n / 10) + n % 10) := by
            ring
        _ = a * 10 ^ ((natToChars (n / 10)).length + 1) + n := by rw [hdm, pow_succ]

theorem digitsToNat_natToChars (n : Nat) : digitsToNat (natToChars n) = n := by
  unfold digitsToNat
  rw [digitsToNat_go n 0]
  simp

theorem parseDigits_natToChars (n : Nat) (rest : List Char)
    (hrest : nonDigitStart rest) :
    parseDigits (natToChars n ++ rest) = some (n, rest) := by
  unfold parseDigits
  rw [takeDigits_append _ _ (natToChars_digits n) hrest]
  obtain ⟨d, t, hd, _⟩ := natToChars_head n
  rw [hd]
  show some (digitsToNat (d :: t), rest) = some (n, rest)
  rw [← hd, digitsToNat_natToChars]

theorem hexVal_hexDigit : ∀ m, m < 16 → hexVal (hexDigit m) = some m := by decide

theorem parseStringBody_control (c : Char) (hc : c.toNat < 32) (tail : List Char) :
    parseStringBody
        ('\\' :: 'u' :: '0' :: '0' :: hexDigit (c.toNat / 16)
          :: hexDigit (c.toNat % 16) :: tail)
      = (parseStringBody tail).map (fun r => (c :: r.1, r.2)) := by
  have h1 : hexVal '0' = some 0 := by decide
  have h2 : hexVal (hexDigit (c.toNat / 16)) = some (c.toNat / 16) :=
    hexVal_hexDigit _ (by omega)
  have h3 : hexVal (hexDigit (c.toNat % 16)) = some (c.toNat % 16) :=
    hexVal_hexDigit _ (Nat.mod_lt _ (by decide))
  show (match hexVal '0', hexVal '0', hexVal (hexDigit (c.toNat / 16)),
          hexVal (hexDigit (c.toNat % 16)) with
        | some x1, some x2, some x3, some x4 =>
          (parseStringBody tail).map
            (fun r : List Char × List Char =>
              (Char.ofNat (((x1 * 16 + x2) * 16 + x3) * 16 + x4) :: r.1, r.2))
        | _, _, _, _ => none) = _
  rw [h1, h2, h3]
  have harith : ((0 * 16 + 0) * 16 + c.toNat / 16) * 16 + c.toNat % 16 = c.toNat := by
    have := Nat.div_add_mod c.toNat 16
    omega
  show (parseStringBody tail).map
      (fun r : List Char × List Char =>
        (Char.ofNat (((0 * 16 + 0) * 16 + c.toNat / 16) * 16 + c.toNat % 16)
          :: r.1, r.2)) = _
  rw [harith, Char.ofNat_toNat]

/-- An unescaped ordinary character passes through the string parser. -/
theorem parseStringBody_plain (c : Char) (cs : List Char) (h1 : ¬ c = '"')
    (h2 : ¬ c = '\\') :
    parseStringBody (c :: cs) = (parseStringBody cs).map (fun r => (c :: r.1, r.2)) := by
  conv_lhs => unfold parseStringBody
  rw [if_neg h1, if_neg h2]
  try exact congrArg _ (parseStringBody.eq_def cs).symm

theorem parseStringBody_escape (s : List Char) (rest : List Char) :
    parseStringBody (escapeString s ++ ('"' :: rest)) = some (s, rest) := by
  induction s with
  | nil =>
    show parseStringBody ('"' :: rest) = some ([], rest)
    unfold parseStringBody
    simp
  | cons c cs ih =>
    show parseStringBody ((escapeChar c ++ escapeString cs) ++ ('"' :: rest)) = _
    rw [List.append_assoc]
    by_cases h1 : c = '"'
    · subst h1
      show (parseStringBody (escapeString cs ++ ('"' :: rest))).map
        (fun r => ('"' :: r.1, r.2)) = _
      rw [ih]
      rfl
    · by_cases h2 : c = '\\'
      · subst h2
        show (parseStringBody (escapeString cs ++ ('"' :: rest))).map
          (fun r => ('\\' :: r.1, r.2)) = _
        rw [ih]
        rfl
      · by_cases h3 : c.toNat < 32
        · show parseStringBody (escapeChar c ++ (escapeString cs ++ ('"' :: rest))) = _
          rw [show escapeChar c
              = ['\\', 'u', '0', '0', hexDigit (c.toNat / 16), hexDigit (c.toNat % 16)]
            from by simp [escapeChar, h1, h2, h3]]
          show parseStringBody
              ('\\' :: 'u' :: '0' :: '0' :: hexDigit (c.toNat / 16)
                :: hexDigit (c.toNat % 16) :: (escapeString cs ++ ('"' :: rest))) = _
          rw [parseStringBody_control c h3, ih]
          rfl
        · show parseStringBody (escapeChar c ++ (escapeString cs ++ ('"' :: rest))) = _
          rw [show escapeChar c = [c] from by simp [escapeChar, h1, h2, h3]]
          show parseStringBody (c :: (escapeString cs ++ ('"' :: rest))) = _
          rw [parseStringBody_plain c _ h1 h2, ih]
          rfl

mutual

/-- Recursion depth `parseVal` needs for a value (the fuel bound). -/
def jfuel : JValue → Nat
  | .jarr xs => jfuelArr xs + 1
  | .jobj xs => jfuelObj xs + 1
  | _ => 1

/-- Fuel `parseArrItems` needs for a nonempty element list. -/
def jfuelArr : List JValue → Nat
  | [] => 0
  | x :: xs => Nat.max (jfuel x) (jfuelArr xs) + 1

/-- Fuel `parseObjItems` needs for a nonempty member list. -/
def jfuelObj : List (List Char × JValue) → Nat
  | [] => 0
  | (_, v) :: xs => Nat.max (jfuel v) (jfuelObj xs) + 1

end

/-- The boundary condition the serialization of `v` needs of what follows
it: a number must not be followed directly by another digit. -/
def okRest : JValue → List Char → Prop
  | .jnum _, rest => nonDigitStart rest
  | _, _ => True

theorem char_digit_bounds (c : Char) (h : c.isDigit = true) :
    48 ≤ c.toNat ∧ c.toNat ≤ 57 := by
  simp [Char.isDigit] at h
  exact h

theorem char_digit_cases (c : Char) (h : c.isDigit = true) :
    c = '0' ∨ c = '1' ∨ c = '2' ∨ c = '3' ∨ c = '4'
      ∨ c = '5' ∨ c = '6' ∨ c = '7' ∨ c = '8' ∨ c = '9' := by
  obtain ⟨hl, hr⟩ := char_digit_bounds c h
  have hc : c = Char.ofNat c.toNat := (Char.ofNat_toNat c).symm
  interval_cases hn : c.toNat <;> simp [hc, hn]

theorem digit_not_ws (c : Char) (h : c.isDigit = true) : isJsonWs c = false := by
  cases hc : isJsonWs c
  · rfl
  · exfalso
    have : ((c = ' ' ∨ c = '\t') ∨ c = '\n') ∨ c = '\r' := by
      simpa [isJsonWs] using hc
    rcases this with ((h1 | h1) | h1) | h1 <;> (subst h1; exact absurd h (by decide))

theorem digit_ne_rbrack (c : Char) (h : c.isDigit = true) : ¬ c = ']' := by
  intro he
  subst he
  exact absurd h (by decide)

/-- The first character of any serialized value: present, not whitespace,
and not a closing bracket. -/
theorem jdumpsChars_head (v : JValue) :
    ∃ h t, jdumpsChars v = h :: t ∧ isJsonWs h = false ∧ ¬ h = ']' := by
  cases v with
  | jnull => exact ⟨'n', _, rfl, by decide, by decide⟩
  | jbool b => cases b
               · exact ⟨'f', _, rfl, by decide, by decide⟩
               · exact ⟨'t', _, rfl, by decide, by decide⟩
  | jstr s => exact ⟨'"', _, rfl, by decide, by decide⟩
  | jarr xs => exact ⟨'[', _, rfl, by decide, by decide⟩
  | jobj xs => exact ⟨lbrace, _, rfl, by decide, by decide⟩
  | jnum n =>
    show ∃ h t, intToChars n = h :: t ∧ _
    unfold intToChars
    split
    · exact ⟨'-', _, rfl, by decide, by decide⟩
    · obtain ⟨d, t, hd, hdig⟩ := natToChars_head n.toNat
      exact ⟨d, t, hd, digit_not_ws d hdig, digit_ne_rbrack d hdig⟩

/-- A digit-headed input is parsed as a (nonnegative) number. -/
theorem parseVal_digit (fuel : Nat) (d : Char) (hd : d.isDigit = true)
    (rest : List Char) :
    parseVal (fuel + 1) (d :: rest)
      = (parseDigits (d :: rest)).map (fun r => (.jnum (r.1 : Int), r.2)) := by
  rcases char_digit_cases d hd with h|h|h|h|h|h|h|h|h|h <;> (subst h; rfl)

theorem parseVal_ws (fuel : Nat) (c : Char) (hc : isJsonWs c = true)
    (cs : List Char) : parseVal fuel (c :: cs) = parseVal fuel cs := by
  cases fuel with
  | zero => rfl
  | succ fuel =>
    have hskip : skipJsonWs (c :: cs) = skipJsonWs cs := by simp [skipJsonWs, hc]
    simp only [parseVal, hskip]

theorem parseArrItems_ws (fuel : Nat) (c : Char) (hc : isJsonWs c = true)
    (cs : List Char) : parseArrItems fuel (c :: cs) = parseArrItems fuel cs := by
  cases fuel with
  | zero => rfl
  | succ fuel =>
    have hv : parseVal fuel (c :: cs) = parseVal fuel cs := parseVal_ws fuel c hc cs
    simp only [parseArrItems, hv]

theorem parseObjItems_ws (fuel : Nat) (c : Char) (hc : isJsonWs c = true)
    (cs : List Char) : parseObjItems fuel (c :: cs) = parseObjItems fuel cs := by
  cases fuel with
  | zero => rfl
  | succ fuel =>
    have hskip : skipJsonWs (c :: cs) = skipJsonWs cs := by simp [skipJsonWs, hc]
    simp only [parseObjItems, hskip]

theorem okRest_not_digit (v : JValue) (c : Char) (rest : List Char)
    (hc : c.isDigit = false) : okRest v (c :: rest) := by
  cases v <;> trivial

theorem jfuel_pos (v : JValue) : 1 ≤ jfuel v := by
  cases v <;> simp [jfuel]

theorem parse_dumps_all (fuel : Nat) :
    (∀ v rest, jfuel v ≤ fuel → okRest v rest →
        parseVal fuel (jdumpsChars v ++ rest) = some (v, rest))
    ∧ (∀ xs rest, xs ≠ [] → jfuelArr xs ≤ fuel →
        parseArrItems fuel (jdumpsArr xs ++ (']' :: rest)) = some (xs, rest))
    ∧ (∀ xs rest, xs ≠ [] → jfuelObj xs ≤ fuel →
        parseObjItems fuel (jdumpsObj xs ++ (rbrace :: rest)) = some (xs, rest)) := by
  induction fuel with
  | zero =>
    refine ⟨?_, ?_, ?_⟩
    · intro v rest hf _
      exact absurd (Nat.le_trans (jfuel_pos v) hf) (by decide)
    · intro xs rest hne hf
      cases xs with
      | nil => exact absurd rfl hne
      | cons x xs => simp [jfuelArr] at hf
    · intro xs rest hne hf
      cases xs with
      | nil => exact absurd rfl hne
      | cons p xs =>
        obtain ⟨k, v⟩ := p
        simp [jfuelObj] at hf
  | succ fuel ih =>
    obtain ⟨ihV, ihA, ihO⟩ := ih
    refine ⟨?_, ?_, ?_⟩
    · -- parseVal on a serialized value
      intro v rest hf hok
      cases v with
      | jnull => rfl
      | jbool b => cases b <;> rfl
      | jnum n =>
        have hok' : nonDigitStart rest := hok
        show parseVal (fuel + 1) (intToChars n ++ rest) = some (.jnum n, rest)
        unfold intToChars
        split
        · next hneg =>
          show (parseDigits (natToChars n.natAbs ++ rest)).map
              (fun r => (JValue.jnum (-(r.1 : Int)), r.2)) = _
          rw [parseDigits_natToChars _ _ hok']
          show some (JValue.jnum (-(n.natAbs : Int)), rest) = _
          have he : -(n.natAbs : Int) = n := by omega
          rw [he]
        · next hpos =>
          obtain ⟨d, t, hd, hdig⟩ := natToChars_head n.toNat
          rw [hd]
          show parseVal (fuel + 1) (d :: (t ++ rest)) = _
          rw [parseVal_digit fuel d hdig]
          rw [show d :: (t ++ rest) = (d :: t) ++ rest from rfl, ← hd,
            parseDigits_natToChars _ _ hok']
          show some (JValue.jnum ((n.toNat : Nat) : Int), rest) = _
          have he : ((n.toNat : Nat) : Int) = n := by omega
          rw [he]
      | jstr s =>
        show parseVal (fuel + 1) ('"' :: ((escapeString s ++ ['"']) ++ rest)) = _
        rw [List.append_assoc]
        show (parseStringBody (escapeString s ++ ('"' :: rest))).map
          (fun r => (JValue.jstr r.1, r.2)) = _
        rw [parseStringBody_escape]
        rfl
      | jarr xs =>
        cases xs with
        | nil => rfl
        | cons x xs2 =>
          have hfa : jfuelArr (x :: xs2) ≤ fuel := by
            simp only [jfuel] at hf
            omega
          show parseVal (fuel + 1)
            ('[' :: ((jdumpsArr (x :: xs2) ++ [']']) ++ rest)) = _
          rw [List.append_assoc]
          show (match skipJsonWs (jdumpsArr (x :: xs2) ++ (']' :: rest)) with
                | c2 :: rest2 =>
                  if c2 = ']' then some (JValue.jarr [], rest2)
                  else (parseArrItems fuel (c2 :: rest2)).map
                    (fun r => (JValue.jarr r.1, r.2))
                | [] => none) = some (JValue.jarr (x :: xs2), rest)
          obtain ⟨h, t, hx, hws, hbr⟩ := jdumpsChars_head x
          have hT : ∃ T, jdumpsArr (x :: xs2) ++ (']' :: rest) = h :: T := by
            cases xs2 with
            | nil => exact ⟨t ++ (']' :: rest), by
                show jdumpsChars x ++ (']' :: rest) = _
                rw [hx]; rfl⟩
            | cons y ys => exact ⟨(t ++ (',' :: ' ' :: jdumpsArr (y :: ys))) ++ (']' :: rest), by
                show (jdumpsChars x ++ (',' :: ' ' :: jdumpsArr (y :: ys))) ++ (']' :: rest) = _
                rw [hx]; rfl⟩
          obtain ⟨T, hT⟩ := hT
          rw [hT, skipJsonWs_not_ws h T hws]
          show (if h = ']' then some (JValue.jarr [], T)
                else (parseArrItems fuel (h :: T)).map
                  (fun r => (JValue.jarr r.1, r.2))) = _
          rw [if_neg hbr, ← hT, ihA (x :: xs2) rest (by simp) hfa]
          rfl
      | jobj xs =>
        cases xs with
        | nil => rfl
        | cons p xs2 =>
          obtain ⟨k, v⟩ := p
          have hfo : jfuelObj ((k, v) :: xs2) ≤ fuel := by
            simp only [jfuel] at hf
            omega
          show parseVal (fuel + 1)
            (lbrace :: ((jdumpsObj ((k, v) :: xs2) ++ [rbrace]) ++ rest)) = _
          rw [List.append_assoc]
          show (match skipJsonWs (jdumpsObj ((k, v) :: xs2) ++ (rbrace :: rest)) with
                | c2 :: rest2 =>
                  if c2 = rbrace then some (JValue.jobj [], rest2)
                  else (parseObjItems fuel (c2 :: rest2)).map
                    (fun r => (JValue.jobj r.1, r.2))
                | [] => none) = some (JValue.jobj ((k, v) :: xs2), rest)
          have hT : ∃ T, jdumpsObj ((k, v) :: xs2) ++ (rbrace :: rest) = '"' :: T := by
            cases xs2 with
            | nil => exact ⟨(escapeString k ++ ('"' :: ':' :: ' ' :: jdumpsChars v))
                ++ (rbrace :: rest), rfl⟩
            | cons q qs => exact ⟨((escapeString k ++ ('"' :: ':' :: ' ' :: jdumpsChars v))
                ++ (',' :: ' ' :: jdumpsObj (q :: qs))) ++ (rbrace :: rest), rfl⟩
          obtain ⟨T, hT⟩ := hT
          rw [hT, skipJsonWs_not_ws '"' T (by decide)]
          show (if ('"' : Char) = rbrace then some (JValue.jobj [], T)
                else (parseObjItems fuel ('"' :: T)).map
                  (fun r => (JValue.jobj r.1, r.2))) = _
          rw [if_neg (by decide), ← hT, ihO ((k, v) :: xs2) rest (by simp) hfo]
          rfl
    · -- parseArrItems on serialized elements
      intro xs rest hne hf
      cases xs with
      | nil => exact absurd rfl hne
      | cons x xs2 =>
        have hm : Nat.max (jfuel x) (jfuelArr xs2) ≤ fuel := by
          simp only [jfuelArr] at hf
          omega
        obtain ⟨hfx, hfxs⟩ := Nat.max_le.mp hm
        cases xs2 with
        | nil =>
          show parseArrItems (fuel + 1) (jdumpsChars x ++ (']' :: rest)) = _
          have hv := ihV x (']' :: rest) hfx (okRest_not_digit x ']' rest (by decide))
          show (match parseVal fuel (jdumpsChars x ++ (']' :: rest)) with
                | none => none
                | some (v, cs1) =>
                  match skipJsonWs cs1 with
                  | c :: cs2 =>
                    if c = ',' then
                      (match parseArrItems fuel cs2 with
                       | none => none
                       | some (vs, cs3) => some (v :: vs, cs3))
                    else if c = ']' then some ([v], cs2)
                    else none
                  | [] => none) = some ([x], rest)
          rw [hv]
          rfl
        | cons y ys =>
          show parseArrItems (fuel + 1)
            ((jdumpsChars x ++ (',' :: ' ' :: jdumpsArr (y :: ys))) ++ (']' :: rest)) = _
          rw [List.append_assoc]
          have hv := ihV x (',' :: ' ' :: (jdumpsArr (y :: ys) ++ (']' :: rest))) hfx
            (okRest_not_digit x ',' _ (by decide))
          show (match parseVal fuel
                  (jdumpsChars x ++ (',' :: ' ' :: (jdumpsArr (y :: ys) ++ (']' :: rest)))) with
                | none => none
                | some (v, cs1) =>
                  match skipJsonWs cs1 with
                  | c :: cs2 =>
                    if c = ',' then
                      (match parseArrItems fuel cs2 with
                       | none => none
                       | some (vs, cs3) => some (v :: vs, cs3))
                    else if c = ']' then some ([v], cs2)
                    else none
                  | [] => none) = some (x :: y :: ys, rest)
          rw [hv]
          show (match parseArrItems fuel (' ' :: (jdumpsArr (y :: ys) ++ (']' :: rest))) with
                | none => none
                | some (vs, cs3) => some (x :: vs, cs3)) = some (x :: y :: ys, rest)
          rw [parseArrItems_ws fuel ' ' (by decide), ihA (y :: ys) rest (by simp) hfxs]
    · -- parseObjItems on serialized members
      intro xs rest hne hf
      cases xs with
      | nil => exact absurd rfl hne
      | cons p xs2 =>
        obtain ⟨k, v⟩ := p
        have hm : Nat.max (jfuel v) (jfuelObj xs2) ≤ fuel := by
          simp only [jfuelObj] at hf
          omega
        obtain ⟨hfv, hfxs⟩ := Nat.max_le.mp hm
        cases xs2 with
        | nil =>
          show parseObjItems (fuel + 1)
            (('"' :: (escapeString k ++ ('"' :: ':' :: ' ' :: jdumpsChars v)))
              ++ (rbrace :: rest)) = _
          rw [List.cons_append, List.append_assoc]
          have hstr := parseStringBody_escape k
            (':' :: ' ' :: (jdumpsChars v ++ (rbrace :: rest)))
          have hv := ihV v (rbrace :: rest) hfv
            (okRest_not_digit v rbrace rest (by decide))
          show (match parseStringBody
                  (escapeString k ++ ('"' :: (':' :: ' ' :: (jdumpsChars v ++ (rbrace :: rest))))) with
                | none => none
                | some (k2, cs1) =>
                  match skipJsonWs cs1 with
                  | ':' :: cs2 =>
                    (match parseVal fuel cs2 with
                     | none => none
                     | some (v2, cs3) =>
                       match skipJsonWs cs3 with
                       | c :: cs4 =>
                         if c = ',' then
                           (match parseObjItems fuel cs4 with
                            | none => none
                            | some (ps, cs5) => some ((k2, v2) :: ps, cs5))
                         else if c = rbrace then some ([(k2, v2)], cs4) else none
                       | [] => none)
                  | _ => none) = some ([(k, v)], rest)
          rw [hstr]
          show (match parseVal fuel (' ' :: (jdumpsChars v ++ (rbrace :: rest))) with
                | none => none
                | some (v2, cs3) =>
                  match skipJsonWs cs3 with
                  | c :: cs4 =>
                    if c = ',' then
                      (match parseObjItems fuel cs4 with
                       | none => none
                       | some (ps, cs5) => some ((k, v2) :: ps, cs5))
                    else if c = rbrace then some ([(k, v2)], cs4) else none
                  | [] => none) = some ([(k, v)], rest)
          rw [parseVal_ws fuel ' ' (by decide), hv]
          show (match skipJsonWs (rbrace :: rest) with
                | c :: cs4 =>
                  if c = ',' then
                    (match parseObjItems fuel cs4 with
                     | none => none
                     | some (ps, cs5) => some ((k, v) :: ps, cs5))
                  else if c = rbrace then some ([(k, v)], cs4) else none
                | [] => none) = some ([(k, v)], rest)
          rw [skipJsonWs_not_ws rbrace rest (by decide)]
          show (if rbrace = ',' then
                  (match parseObjItems fuel rest with
                   | none => none
                   | some (ps, cs5) => some ((k, v) :: ps, cs5))
                else if rbrace = rbrace then some ([(k, v)], rest) else none)
            = some ([(k, v)], rest)
          rw [if_neg (by decide), if_pos rfl]
        | cons q qs =>
          show parseObjItems (fuel + 1)
            ((('"' :: (escapeString k ++ ('"' :: ':' :: ' ' :: jdumpsChars v)))
                ++ (',' :: ' ' :: jdumpsObj (q :: qs))) ++ (rbrace :: rest)) = _
          rw [List.append_assoc, List.cons_append, List.append_assoc]
          have hstr := parseStringBody_escape k
            (':' :: ' ' :: (jdumpsChars v
              ++ (',' :: ' ' :: (jdumpsObj (q :: qs) ++ (rbrace :: rest)))))
          have hv := ihV v (',' :: ' ' :: (jdumpsObj (q :: qs) ++ (rbrace :: rest))) hfv
            (okRest_not_digit v ',' _ (by decide))
          show (match parseStringBody
                  (escapeString k ++ ('"' :: (':' :: ' ' :: (jdumpsChars v
                    ++ (',' :: ' ' :: (jdumpsObj (q :: qs) ++ (rbrace :: rest))))))) with
                | none => none
                | some (k2, cs1) =>
                  match skipJsonWs cs1 with
                  | ':' :: cs2 =>
                    (match parseVal fuel cs2 with
                     | none => none
                     | some (v2, cs3) =>
                       match skipJsonWs cs3 with
                       | c :: cs4 =>
                         if c = ',' then
                           (match parseObjItems fuel cs4 with
                            | none => none
                            | some (ps, cs5) => some ((k2, v2) :: ps, cs5))
                         else if c = rbrace then some ([(k2, v2)], cs4) else none
                       | [] => none)
                  | _ => none) = some ((k, v) :: q :: qs, rest)
          rw [hstr]
          show (match parseVal fuel (' ' :: (jdumpsChars v
                  ++ (',' :: ' ' :: (jdumpsObj (q :: qs) ++ (rbrace :: rest))))) with
                | none => none
                | some (v2, cs3) =>
                  match skipJsonWs cs3 with
                  | c :: cs4 =>
                    if c = ',' then
                      (match parseObjItems fuel cs4 with
                       | none => none
                       | some (ps, cs5) => some ((k, v2) :: ps, cs5))
                    else if c = rbrace then some ([(k, v2)], cs4) else none
                  | [] => none) = some ((k, v) :: q :: qs, rest)
          rw [parseVal_ws fuel ' ' (by decide), hv]
          show (match skipJsonWs (',' :: ' ' :: (jdumpsObj (q :: qs) ++ (rbrace :: rest))) with
                | c :: cs4 =>
                  if c = ',' then
                    (match parseObjItems fuel cs4 with
                     | none => none
                     | some (ps, cs5) => some ((k, v) :: ps, cs5))
                  else if c = rbrace then some ([(k, v)], cs4) else none
                | [] => none) = some ((k, v) :: q :: qs, rest)
          rw [skipJsonWs_not_ws ',' _ (by decide)]
          show (if (',' : Char) = ',' then
                  (match parseObjItems fuel (' ' :: (jdumpsObj (q :: qs) ++ (rbrace :: rest))) with
                   | none => none
                   | some (ps, cs5) => some ((k, v) :: ps, cs5))
                else if (',' : Char) = rbrace
                  then some ([(k, v)], ' ' :: (jdumpsObj (q :: qs) ++ (rbrace :: rest)))
                  else none)
            = some ((k, v) :: q :: qs, rest)
          rw [if_pos rfl, parseObjItems_ws fuel ' ' (by decide),
            ihO (q :: qs) rest (by simp) hfxs]

mutual

theorem jfuel_le_len : ∀ v : JValue, jfuel v ≤ (jdumpsChars v).length
  | .jnull => by decide
  | .jbool b => by cases b <;> decide
  | .jnum n => by
    show 1 ≤ (intToChars n).length
    unfold intToChars
    split
    · simp
    · obtain ⟨d, t, hd, _⟩ := natToChars_head n.toNat
      rw [hd]
      simp
  | .jstr s => by
    show 1 ≤ ('"' :: (escapeString s ++ ['"'])).length
    simp
  | .jarr xs => by
    show jfuelArr xs + 1 ≤ ('[' :: (jdumpsArr xs ++ [']'])).length
    have := jfuelArr_le_len xs
    simp only [List.length_cons, List.length_append, List.length_singleton]
    omega
  | .jobj xs => by
    show jfuelObj xs + 1 ≤ (lbrace :: (jdumpsObj xs ++ [rbrace])).length
    have := jfuelObj_le_len xs
    simp only [List.length_cons, List.length_append, List.length_singleton]
    omega

theorem jfuelArr_le_len : ∀ xs : List JValue, jfuelArr xs ≤ (jdumpsArr xs).length + 1
  | [] => by simp [jfuelArr, jdumpsArr]
  | [x] => by
    show Nat.max (jfuel x) (jfuelArr []) + 1 ≤ (jdumpsChars x).length + 1
    have hx := jfuel_le_len x
    have h0 : jfuelArr ([] : List JValue) = 0 := rfl
    refine Nat.add_le_add_right (Nat.max_le.mpr ⟨hx, ?_⟩) 1
    rw [h0]
    exact Nat.zero_le _
  | x :: y :: ys => by
    show Nat.max (jfuel x) (jfuelArr (y :: ys)) + 1
      ≤ (jdumpsChars x ++ (',' :: ' ' :: jdumpsArr (y :: ys))).length + 1
    have hx := jfuel_le_len x
    have hys := jfuelArr_le_len (y :: ys)
    refine Nat.add_le_add_right (Nat.max_le.mpr ⟨?_, ?_⟩) 1 <;>
      simp only [List.length_append, List.length_cons] <;> omega

theorem jfuelObj_le_len :
    ∀ xs : List (List Char × JValue), jfuelObj xs ≤ (jdumpsObj xs).length + 1
  | [] => by simp [jfuelObj, jdumpsObj]
  | [(k, v)] => by
    show Nat.max (jfuel v) (jfuelObj []) + 1
      ≤ ('"' :: (escapeString k ++ ('"' :: ':' :: ' ' :: jdumpsChars v))).length + 1
    have hv := jfuel_le_len v
    have h0 : jfuelObj ([] : List (List Char × JValue)) = 0 := rfl
    refine Nat.add_le_add_right (Nat.max_le.mpr ⟨?_, ?_⟩) 1
    · simp only [List.length_cons, List.length_append]
      omega
    · rw [h0]
      exact Nat.zero_le _
  | (k, v) :: q :: qs => by
    show Nat.max (jfuel v) (jfuelObj (q :: qs)) + 1
      ≤ (('"' :: (escapeString k ++ ('"' :: ':' :: ' ' :: jdumpsChars v)))
          ++ (',' :: ' ' :: jdumpsObj (q :: qs))).length + 1
    have hv := jfuel_le_len v
    have hqs := jfuelObj_le_len (q :: qs)
    refine Nat.add_le_add_right (Nat.max_le.mpr ⟨?_, ?_⟩) 1 <;>
      simp only [List.length_append, List.length_cons] <;> omega

end

/-- The round-trip law of the serialization: `json.loads` inverts
`json.dumps` on every JSON value. -/
theorem jloads_jdumps (v : JValue) : jloads (jdumps v) = some v := by
  show (match parseVal ((jdumpsChars v).length + 1) (jdumpsChars v) with
        | some (v2, rest) => if skipJsonWs rest = [] then some v2 else none
        | none => none) = some v
  have hok : okRest v [] := by cases v <;> trivial
  have hp := (parse_dumps_all ((jdumpsChars v).length + 1)).1 v []
    (Nat.le_succ_of_le (jfuel_le_len v)) hok
  rw [List.append_nil] at hp
  rw [hp]
  rfl

/-- Card ids are pairwise distinct and below the AUTOINCREMENT counter
(true of every store the module builds; the inserts use fresh ids). -/
def cardsWF (db : DB) : Prop :=
  (db.characterCards.map (fun r => r.id)).Nodup ∧
    ∀ r ∈ db.characterCards, r.id < db.nextCardId

/-- Under distinct ids, looking a member row up by its own id finds it. -/
theorem find?_id_unique {l : List CharacterCardRow} {r0 : CharacterCardRow}
    (hnd : (l.map (fun r => r.id)).Nodup) (hr : r0 ∈ l) :
    l.find? (fun r => r.id == r0.id) = some r0 := by
  induction l with
  | nil => cases hr
  | cons a l ih =>
    simp only [List.map_cons, List.nodup_cons] at hnd
    obtain ⟨ha, hl⟩ := hnd
    rcases List.mem_cons.mp hr with h | h
    · subst h
      exact List.find?_cons_of_pos l (by simp)
    · have hne : ((fun r : CharacterCardRow => r.id == r0.id) a) = false := by
        refine Bool.eq_false_iff.mpr ?_
        intro hbe
        exact ha (by
          rw [nat_beq_true hbe]
          exact List.mem_map_of_mem (fun r => r.id) h)
      rw [List.find?_cons_of_neg l (by simp [hne])]
      exact ih hl h

/-- The row the INSERT branch of `add_character_card` writes. -/
def insertedCardRow (card : CardInput) (db : DB) (img : Option (List Nat)) :
    CharacterCardRow :=
  { id := db.nextCardId, name := (parse_character_card card).name
    description := (parse_character_card card).description
    personality := (parse_character_card card).personality
    scenario := (parse_character_card card).scenario, image := img
    post_history_instructions := (parse_character_card card).post_history_instructions
    first_mes := (parse_character_card card).first_mes
    mes_example := (parse_character_card card).mes_example
    creator_notes := (parse_character_card card).creator_notes
    system_prompt := (parse_character_card card).system_prompt
    alternate_greetings := (parse_character_card card).alternate_greetings
    tags := (parse_character_card card).tags
    creator := (parse_character_card card).creator
    character_version := (parse_character_card card).character_version
    extensions := (parse_character_card card).extensions
    created_at := db.now }

/-- C5: whenever `add_character_card` succeeds with an id, reading that id
back through `get_character_card_by_id` yields a row whose
`alternate_greetings`, `tags` and `extensions` columns hold exactly the
`json.dumps` text of the input structures, and `json.loads` maps that
stored text back to the original structures (serialize-then-deserialize
round-trip), on both the insert and the overwrite path. -/
theorem card_fields_json_roundtrip (card : CardInput) (db : DB) (i : Nat) (db2 : DB)
    (hwf : cardsWF db) (h : add_character_card card db = (some i, db2)) :
    ∃ r, get_character_card_by_id (.byId i) db2 = some (.row r)
      ∧ r.alternate_greetings = jdumps (card.alternate_greetings.getD (.jarr []))
      ∧ jloads r.alternate_greetings = some (card.alternate_greetings.getD (.jarr []))
      ∧ r.tags = jdumps (card.tags.getD (.jarr []))
      ∧ jloads r.tags = some (card.tags.getD (.jarr []))
      ∧ r.extensions = jdumps (card.extensions.getD (.jobj []))
      ∧ jloads r.extensions = some (card.extensions.getD (.jobj [])) := by
  obtain ⟨hnd, hbd⟩ := hwf
  simp only [add_character_card] at h
  cases hfind : db.characterCards.find?
      (fun r => r.name == (parse_character_card card).name) with
  | some r0 =>
    rw [hfind] at h
    cases himg : (parse_character_card card).image with
    | none =>
      rw [himg] at h
      have h1 : (none : Option Nat) = some i := congrArg Prod.fst h
      exact absurd h1 (by simp)
    | some img =>
      rw [himg] at h
      have h1 : some r0.id = some i := congrArg Prod.fst h
      have hi : r0.id = i := by simpa using h1
      have hdb : ({ db with characterCards := db.characterCards.map (fun r1 => if r1.id == r0.id then overwriteCard r1 (parse_character_card card) img else r1) } : DB) = db2 :=
        congrArg Prod.snd h
      subst hdb
      refine ⟨overwriteCard r0 (parse_character_card card) img, ?_, rfl,
        jloads_jdumps _, rfl, jloads_jdumps _, rfl, jloads_jdumps _⟩
      show ((db.characterCards.map (fun r1 => if r1.id == r0.id then overwriteCard r1 (parse_character_card card) img else r1)).find?
            (fun r => r.id == i)).map CardResult.row = _
      rw [List.find?_map]
      have hcomp : ((fun r : CharacterCardRow => r.id == i) ∘
            (fun r1 => if r1.id == r0.id then overwriteCard r1 (parse_character_card card) img else r1))
            = (fun r1 : CharacterCardRow => r1.id == r0.id) := by
        funext r1
        show ((if r1.id == r0.id then overwriteCard r1 (parse_character_card card) img else r1).id == i)
            = (r1.id == r0.id)
        rw [← hi]
        by_cases hb : (r1.id == r0.id) = true
        · rw [if_pos hb]
          rfl
        · rw [if_neg hb]
      rw [hcomp, find?_id_unique hnd (List.mem_of_find?_eq_some hfind)]
      show some (CardResult.row (if (r0.id == r0.id) = true then
        overwriteCard r0 (parse_character_card card) img else r0)) = _
      rw [if_pos (by simp)]
  | none =>
    rw [hfind] at h
    cases himg : (parse_character_card card).image with
    | none =>
      rw [himg] at h
      have h1 : (none : Option Nat) = some i := congrArg Prod.fst h
      exact absurd h1 (by simp)
    | some img =>
      rw [himg] at h
      have h1 : some db.nextCardId = some i := congrArg Prod.fst h
      have hi : db.nextCardId = i := by simpa using h1
      have hdb : ({ db with
          characterCards := db.characterCards ++ [insertedCardRow card db img],
          nextCardId := db.nextCardId + 1, now := db.now + 1 } : DB)
          = db2 := congrArg Prod.snd h
      subst hdb
      refine ⟨insertedCardRow card db img, ?_, rfl,
        jloads_jdumps _, rfl, jloads_jdumps _, rfl, jloads_jdumps _⟩
      show ((db.characterCards ++ [insertedCardRow card db img]).find?
          (fun r => r.id == i)).map CardResult.row = _
      rw [List.find?_append]
      have h2 : db.characterCards.find? (fun r => r.id == i) = none := by
        rw [List.find?_eq_none]
        intro r hr
        simp only [beq_iff_eq]
        rw [← hi]
        exact Nat.ne_of_lt (hbd r hr)
      rw [h2]
      have h3 : ([insertedCardRow card db img].find? (fun r => r.id == i))
          = some (insertedCardRow card db img) :=
        List.find?_cons_of_pos _ (by
          show (db.nextCardId == i) = true
          simp [hi])
      rw [h3]
      rfl

/-- A concrete card with nontrivial list/map fields for the round-trip
witness. -/
def jsonCard : CardInput :=
  { name := some ("Ada"), image := some none,
    alternate_greetings := some (.jarr [.jstr ['h', 'i'], .jstr ['y', 'o']]),
    tags := some (.jarr [.jstr ['t', '1']]),
    extensions := some (.jobj [(['k'], .jnum 3)]) }

theorem card_fields_json_roundtrip_witness :
    cardsWF initialDB
    ∧ (∃ r, get_character_card_by_id (.byId 1)
          (add_character_card jsonCard initialDB).2 = some (.row r)
        ∧ r.alternate_greetings = jdumps (jsonCard.alternate_greetings.getD (.jarr []))
        ∧ jloads r.alternate_greetings = some (jsonCard.alternate_greetings.getD (.jarr []))
        ∧ r.tags = jdumps (jsonCard.tags.getD (.jarr []))
        ∧ jloads r.tags = some (jsonCard.tags.getD (.jarr []))
        ∧ r.extensions = jdumps (jsonCard.extensions.getD (.jobj []))
        ∧ jloads r.extensions = some (jsonCard.extensions.getD (.jobj []))) :=
  ⟨⟨by simp [initialDB], by simp [initialDB]⟩,
   card_fields_json_roundtrip jsonCard initialDB 1
     ((add_character_card jsonCard initialDB).2)
     ⟨by simp [initialDB], by simp [initialDB]⟩ rfl⟩
